import Mathlib

/-!
# ImageCompare (ANTs `Examples/ImageCompare.cxx`)

A shallow embedding of the regression-test driver `ImageCompare` and of the
comparator `RegressionTestImage`.

The imaging library (ITK) is outside the program.  It is represented by a
record `Lib` of oracles, one per pipeline execution the program triggers
(`UpdateLargestPossibleRegion` / `Update` of a reader, comparison filter,
rescale filter or writer).  Each of these either completes or raises a C++
exception; the program's own `try`/`catch` structure decides what happens
next.  The oracles are functions of the file names involved, so that a
comparison of the same two files behaves the same way each time it is run.

Everything the program does besides returning a status (library calls, text
printed) is recorded in a trace of `Event`s.

Conventions.
* The arguments of `ImageCompare` are arbitrary strings; `c_str` gives what the
  program reads from the NUL-terminated copies it makes of them.  The `char *`
  parameters of `RegressionTestImage` are the strings they point to.
* `int` values are `Int`; the argument count is far below `2^31`.
* The `double` returned by `GetTotalDifference` is a rational; the only
  operation the program applies to it is the test `status != 0`.
-/

namespace ants

/-- The constant `EXIT_SUCCESS` of `<cstdlib>`. -/
def EXIT_SUCCESS : Int := 0

/-- The constant `EXIT_FAILURE` of `<cstdlib>`. -/
def EXIT_FAILURE : Int := 1

/-- The constant `ITK_TEST_DIMENSION_MAX` (line 19), the dimension of `ImageType`. -/
@[reducible] def ITK_TEST_DIMENSION_MAX : Nat := 6

/-- C++ exceptions, classified by the handler of `ImageCompare` (lines 119-135)
that catches them. -/
inductive Exn where
  /-- an `itk::ExceptionObject` -/
  | itk
  /-- a `std::exception` that is not an `itk::ExceptionObject` -/
  | std
  /-- anything else (`catch (...)`) -/
  | unknown
  deriving DecidableEq, Repr

/-- The three images the rescale filter is fed with inside the reporting block. -/
inductive Source where
  /-- the output `diff->GetOutput()` of the comparison (lines 217 and 247) -/
  | difference
  /-- the baseline image `baselineReader->GetOutput()` (line 272) -/
  | baseline
  /-- the test image `testReader->GetOutput()` (line 297) -/
  | test
  deriving DecidableEq, Repr

/-- The imaging library, as far as the program observes it. -/
structure Lib where
  /-- values of `itk::Image<double, 6>` -/
  Image : Type
  /-- the call `ImageFileReader::UpdateLargestPossibleRegion` on a file name (lines 158, 171) -/
  read : String → Except Exn Image
  /-- the value `GetLargestPossibleRegion().GetSize()`, an `itk::Size<6>` (lines 181, 183) -/
  size : Image → Fin ITK_TEST_DIMENSION_MAX → Nat
  /-- the filter `ComparisonImageFilter` on the baseline image (valid input) and
  the test image (test input) with difference threshold 2.0, run by
  `UpdateLargestPossibleRegion` (line 199); on completion the value of
  `GetTotalDifference()` (line 201) -/
  compare : Image → Image → Except Exn ℚ
  /-- the call `rescale->UpdateLargestPossibleRegion()` on the difference image
  (line 218), for test and baseline file name; `none` when it completes -/
  rescaleAll : String → String → Option Exn
  /-- the call `rescale->Update()` after `SetInput` (lines 248, 273, 298), for test and
  baseline file name; `none` when it completes -/
  rescale : String → String → Source → Option Exn
  /-- the call `writer->Update()` (lines 257, 282, 307), for test and baseline file name
  and output file name; `none` when it completes -/
  write : String → String → String → Option Exn

/-- Observable actions of the program. -/
inductive Event where
  /-- the usage text on `cerr` (lines 74-77) -/
  | usage
  /-- entry into `RegressionTestImage(test, baseline, reportErrors, differences)` -/
  | call (test baseline : String) (reportErrors : Int) (differences : Bool)
  /-- a reader is run on a file -/
  | read (file : String)
  /-- the message "Exception detected while reading ..." (lines 162, 175) -/
  | readError (file : String)
  /-- the size-mismatch message (lines 187-189) -/
  | sizeMismatch (baseline test : String)
  /-- the comparison filter is run (line 199) -/
  | compare
  /-- the rescale filter is run on a source (lines 218, 248, 273, 298) -/
  | rescale (src : Source)
  /-- the message "Error during rescale of ..." -/
  | rescaleError (file : String)
  /-- the writer is run with the given output file name (lines 257, 282, 307) -/
  | write (file : String)
  /-- the message "Error during write of ..." -/
  | writeError (file : String)
  /-- the `DartMeasurement` line carrying the total difference (lines 239-241) -/
  | measurement (total : ℚ)
  /-- a `DartMeasurementFile` line: tag name and file (lines 264-266, 289-291, 314-316) -/
  | fileTag (name file : String)
  /-- the message "ITK test driver caught ..." (lines 121-134) -/
  | caught (e : Exn)
  /-- the output `cout << bestBaselineStatus` (line 136) -/
  | printStatus (status : Int)
  deriving DecidableEq

/-- A run of a function that may raise: what it did, and how it ended. -/
structure Run (α : Type) where
  /-- the actions performed, in order -/
  trace : List Event
  /-- the value returned, or the exception that left the function -/
  out : Except Exn α

/-- Sequencing: an exception in the first part skips the second. -/
def Run.bind {α β : Type} (r : Run α) (f : α → Run β) : Run β :=
  match r.out with
  | .ok a => ⟨r.trace ++ (f a).trace, (f a).out⟩
  | .error e => ⟨r.trace, .error e⟩

/-- Normal completion with no action. -/
def Run.ret {α : Type} (a : α) : Run α := ⟨[], .ok a⟩

/-- A pipeline execution inside `try { ... } catch (...) { cout << ... }`:
the execution is attempted; when it raises, the handler logs and control
continues after the handler. -/
def guarded (attempt : Event) (failure : Option Exn) (logged : Event) : List Event :=
  match failure with
  | none => [attempt]
  | some _ => [attempt, logged]

/-- Lines 236-316: the artifact steps of the reporting block, entered after the
rescale of line 218 has completed.  `status` is the total difference. -/
def reportArtifacts (lib : Lib) (testImageFilename baselineImageFilename : String)
    (status : ℚ) (differences : Bool) : List Event :=
  let diffName := testImageFilename ++ ".diff.png"
  let baseName := testImageFilename ++ ".base.png"
  let testName := testImageFilename ++ ".test.png"
  (if differences then
      [Event.measurement status]
        ++ guarded (.rescale .difference)
            (lib.rescale testImageFilename baselineImageFilename .difference) (.rescaleError diffName)
        ++ guarded (.write diffName)
            (lib.write testImageFilename baselineImageFilename diffName) (.writeError diffName)
        ++ [Event.fileTag "DifferenceImage" diffName]
    else [])
    ++ guarded (.rescale .baseline)
        (lib.rescale testImageFilename baselineImageFilename .baseline) (.rescaleError baseName)
    ++ guarded (.write baseName)
        (lib.write testImageFilename baselineImageFilename baseName) (.writeError baseName)
    ++ [Event.fileTag "BaselineImage" baseName]
    ++ guarded (.rescale .test)
        (lib.rescale testImageFilename baselineImageFilename .test) (.rescaleError testName)
    ++ guarded (.write testName)
        (lib.write testImageFilename baselineImageFilename testName) (.writeError testName)
    ++ [Event.fileTag "TestImage" testName]

/-- Line 318: `(status != EXIT_SUCCESS) ? EXIT_FAILURE : EXIT_SUCCESS`. -/
def statusOfTotal (status : ℚ) : Int :=
  if status ≠ 0 then EXIT_FAILURE else EXIT_SUCCESS

/-- The function `RegressionTestImage` (lines 141-319). -/
def RegressionTestImage (lib : Lib) (testImageFilename baselineImageFilename : String)
    (reportErrors : Int) (differences : Bool) : Run Int :=
  match lib.read baselineImageFilename with
  | .error e =>
    if e = .itk then
      ⟨[.read baselineImageFilename, .readError baselineImageFilename], .ok 1000⟩
    else ⟨[.read baselineImageFilename], .error e⟩
  | .ok baseline =>
    match lib.read testImageFilename with
    | .error e =>
      if e = .itk then
        ⟨[.read baselineImageFilename, .read testImageFilename,
          .readError testImageFilename], .ok 1000⟩
      else ⟨[.read baselineImageFilename, .read testImageFilename], .error e⟩
    | .ok test =>
      if lib.size baseline ≠ lib.size test then
        ⟨[.read baselineImageFilename, .read testImageFilename,
          .sizeMismatch baselineImageFilename testImageFilename], .ok EXIT_FAILURE⟩
      else
        match lib.compare baseline test with
        | .error e =>
          ⟨[.read baselineImageFilename, .read testImageFilename, .compare], .error e⟩
        | .ok status =>
          if reportErrors ≠ 0 then
            match lib.rescaleAll testImageFilename baselineImageFilename with
            | some e =>
              ⟨[.read baselineImageFilename, .read testImageFilename, .compare,
                .rescale .difference], .error e⟩
            | none =>
              ⟨[.read baselineImageFilename, .read testImageFilename, .compare,
                .rescale .difference]
                ++ reportArtifacts lib testImageFilename baselineImageFilename status differences,
               .ok (statusOfTotal status)⟩
          else
            ⟨[.read baselineImageFilename, .read testImageFilename, .compare],
             .ok (statusOfTotal status)⟩

/-- A call of `RegressionTestImage` from `ImageCompare`, recorded in the trace. -/
def callRegressionTestImage (lib : Lib) (test baseline : String) (reportErrors : Int)
    (differences : Bool) : Run Int :=
  ⟨Event.call test baseline reportErrors differences
      :: (RegressionTestImage lib test baseline reportErrors differences).trace,
   (RegressionTestImage lib test baseline reportErrors differences).out⟩

/-- The loop of lines 95-107, `n` iterations starting at index `i`, with the
current `bestBaselineStatus` and `bestBaseline`; returns their final values. -/
def baselineLoop (lib : Lib) (argv : List String) :
    Nat → Nat → Int → Nat → Run (Int × Nat)
  | 0, _, bestBaselineStatus, bestBaseline => Run.ret (bestBaselineStatus, bestBaseline)
  | n + 1, i, bestBaselineStatus, bestBaseline =>
    (callRegressionTestImage lib (argv.getD 1 "") (argv.getD i "") 0 false).bind
      fun currentStatus =>
        let best := if currentStatus < bestBaselineStatus then currentStatus else bestBaselineStatus
        let idx := if currentStatus < bestBaselineStatus then i else bestBaseline
        if best = 0 then Run.ret (best, idx)
        else baselineLoop lib argv n (i + 1) best idx

/-- Lines 84-108: the choice of `bestBaselineStatus` and `bestBaseline`. -/
def selectBaseline (lib : Lib) (argv : List String) : Run (Int × Nat) :=
  if argv.length = 3 then
    (callRegressionTestImage lib (argv.getD 1 "") (argv.getD 2 "") 0 false).bind
      fun s => Run.ret (s, 2)
  else
    baselineLoop lib argv (argv.length - 2) 2 2001 2

/-- Lines 86-118: the body of the `try` block; returns `bestBaselineStatus`. -/
def tryBlock (lib : Lib) (argv : List String) : Run Int :=
  (selectBaseline lib argv).bind fun sel =>
    (if sel.1 = 0 then
        callRegressionTestImage lib (argv.getD 1 "") (argv.getD sel.2 "") 1 false
      else
        callRegressionTestImage lib (argv.getD 1 "") (argv.getD sel.2 "") 1 true).bind
      fun _ => Run.ret sel.1

/-- What a run of `ImageCompare` did and the status it returned. -/
structure Outcome where
  /-- the actions performed, in order -/
  trace : List Event
  /-- the value returned -/
  status : Int

/-- The C string read from a buffer holding the characters of `s` followed by a
terminating NUL: the characters of `s` before its first NUL.  Lines 40-43 copy
each argument into such a buffer, and every later use of `argv[i]` reads it as
a `char *`. -/
def c_str (s : String) : String :=
  ⟨s.data.takeWhile (fun c => c ≠ Char.ofNat 0)⟩

/-- Lines 72-138 of `ImageCompare`, on the argument vector `argv` built by
lines 33-45 (`argc` is its length). -/
def driver (lib : Lib) (argv : List String) : Outcome :=
  let argc := argv.length
  if argc < 3 then
    if argc ≥ 2 ∧ (argv.getD 1 "" = "--help" ∨ argv.getD 1 "" = "-h") then
      ⟨[.usage], EXIT_SUCCESS⟩
    else ⟨[.usage], EXIT_FAILURE⟩
  else
    match (tryBlock lib argv).out with
    | .ok bestBaselineStatus =>
      ⟨(tryBlock lib argv).trace ++ [.printStatus bestBaselineStatus], bestBaselineStatus⟩
    | .error e =>
      ⟨(tryBlock lib argv).trace ++ [.caught e, .printStatus (-1)], -1⟩

/-- The function `ImageCompare` (lines 26-138): line 33 inserts the command name
in front of `args`, lines 36-45 copy every element into a NUL-terminated buffer
of `argv`, and the rest of the function works on `argv`. -/
def ImageCompare (lib : Lib) (args : List String) : Outcome :=
  driver lib (("ImageCompare" :: args).map c_str)

/-! ## Observations on traces -/

/-- The calls of `RegressionTestImage` recorded in a trace, in order. -/
def callsOf : List Event → List (String × String × Int × Bool)
  | [] => []
  | .call t b r d :: rest => (t, b, r, d) :: callsOf rest
  | _ :: rest => callsOf rest

/-- The output file names of the writer runs recorded in a trace, in order. -/
def writesOf : List Event → List String
  | [] => []
  | .write f :: rest => f :: writesOf rest
  | _ :: rest => writesOf rest

/-- The `DartMeasurementFile` lines recorded in a trace, in order. -/
def fileTagsOf : List Event → List (String × String)
  | [] => []
  | .fileTag n f :: rest => (n, f) :: fileTagsOf rest
  | _ :: rest => fileTagsOf rest

/-- The trace produced by a sequence of calls of `RegressionTestImage`. -/
def expand (lib : Lib) : List (String × String × Int × Bool) → List Event
  | [] => []
  | c :: cs =>
    (Event.call c.1 c.2.1 c.2.2.1 c.2.2.2
        :: (RegressionTestImage lib c.1 c.2.1 c.2.2.1 c.2.2.2).trace) ++ expand lib cs

/-- A run is made of calls of `RegressionTestImage` only; it ends normally only
if each of them returned, and it raises only what one of them raised. -/
def Faithful (lib : Lib) {α : Type} (run : Run α) : Prop :=
  run.trace = expand lib (callsOf run.trace)
  ∧ (∀ v, run.out = .ok v → ∀ c ∈ callsOf run.trace,
        ∃ s, (RegressionTestImage lib c.1 c.2.1 c.2.2.1 c.2.2.2).out = .ok s)
  ∧ (∀ e, run.out = .error e → ∃ c ∈ callsOf run.trace,
        (RegressionTestImage lib c.1 c.2.1 c.2.2.1 c.2.2.2).out = .error e)

/-- The loop of lines 95-107 once more, by recursion on the list of candidates
not yet evaluated: `i` is the index in `argv` of the first of them.  It agrees
with `baselineLoop` (`baselineLoop_eq_scan`). -/
def scan (lib : Lib) (t : String) : List String → Nat → Int → Nat → Run (Int × Nat)
  | [], _, bestBaselineStatus, bestBaseline => Run.ret (bestBaselineStatus, bestBaseline)
  | b :: rest, i, bestBaselineStatus, bestBaseline =>
    (callRegressionTestImage lib t b 0 false).bind
      fun currentStatus =>
        let best := if currentStatus < bestBaselineStatus then currentStatus else bestBaselineStatus
        let idx := if currentStatus < bestBaselineStatus then i else bestBaseline
        if best = 0 then Run.ret (best, idx)
        else scan lib t rest (i + 1) best idx

/-- The baselines passed to reporting calls (`reportErrors` non-zero) recorded
in a trace, in order. -/
def reportingBaselines (trace : List Event) : List String :=
  ((callsOf trace).filter (fun c => decide (c.2.2.1 ≠ 0))).map (fun c => c.2.1)

/-! ## The selection, in the words of the specification -/

/-- Number of candidates evaluated, given the silent statuses of the candidates
in argument order: the position (counted from 1) of the first status 0, or the
number of candidates when no status is 0. -/
def evaluatedCount : List Int → Nat
  | [] => 0
  | s :: rest => if s = 0 then 1 else evaluatedCount rest + 1

/-- The statuses of the candidates that are evaluated. -/
def evaluated (statuses : List Int) : List Int :=
  statuses.take (evaluatedCount statuses)

/-- The minimum of a non-empty list of statuses. -/
def minStatus : List Int → Int
  | [] => 0
  | s :: rest => rest.foldl min s

/-- Position (counted from 0) of the earliest status equal to `m`. -/
def earliest (m : Int) : List Int → Nat
  | [] => 0
  | s :: rest => if s = m then 0 else earliest m rest + 1

/-! ## Sample libraries -/

/-- A library over files: a file in `missing` makes the reader raise an
`itk::ExceptionObject`, any other file loads as an image named after the file,
of size `width f` x 5 x 1 x 1 x 1 x 1; the total difference of two images is
given by `total`, and the remaining steps behave as given. -/
def sampleLib (missing : List String) (width : String → Nat) (total : String → String → ℚ)
    (rescaleAll : String → String → Option Exn)
    (rescale : String → String → Source → Option Exn)
    (write : String → String → String → Option Exn) : Lib where
  Image := String
  read := fun f => if f ∈ missing then .error .itk else .ok f
  size := fun img i => if i.val = 0 then width img else if i.val = 1 then 5 else 1
  compare := fun b t => .ok (total b t)
  rescaleAll := rescaleAll
  rescale := rescale
  write := write

/-- Every step completes; all files hold the same 5x5 picture. -/
def libSame : Lib :=
  sampleLib [] (fun _ => 5) (fun _ _ => 0) (fun _ _ => none) (fun _ _ _ => none)
    (fun _ _ _ => none)

/-- As `libSame`, but the files listed in `missing` cannot be read. -/
def libMissing (missing : List String) : Lib :=
  sampleLib missing (fun _ => 5) (fun _ _ => 0) (fun _ _ => none) (fun _ _ _ => none)
    (fun _ _ _ => none)

/-- As `libSame`, but the file `B.img` holds an image of size 6x5x1x1x1x1. -/
def libSizes : Lib :=
  sampleLib [] (fun f => if f = "B.img" then 6 else 5) (fun _ _ => 0) (fun _ _ => none)
    (fun _ _ _ => none) (fun _ _ _ => none)

/-- As `libSame`, but the rescale of line 218 raises an `itk::ExceptionObject`. -/
def libRescaleAllFails : Lib :=
  sampleLib [] (fun _ => 5) (fun _ _ => 0) (fun _ _ => some .itk) (fun _ _ _ => none)
    (fun _ _ _ => none)

/-- As `libSame`, but the comparison filter raises an `itk::ExceptionObject`. -/
def libCompareFails : Lib where
  Image := String
  read := fun f => .ok f
  size := fun _ i => if i.val < 2 then 5 else 1
  compare := fun _ _ => .error .itk
  rescaleAll := fun _ _ => none
  rescale := fun _ _ _ => none
  write := fun _ _ _ => none

/-- Every file loads, the total difference is 3, and the writer fails on the
`.diff.png` artifact and the rescale filter fails on the test image. -/
def libArtifactsFail : Lib :=
  sampleLib [] (fun _ => 5) (fun _ _ => 3) (fun _ _ => none)
    (fun _ _ src => if src = .test then some .std else none)
    (fun t _ f => if f = t ++ ".diff.png" then some .unknown else none)

/-- Every file loads and every step completes; the total difference against the
baseline `b1` is 5, against any other baseline 3. -/
def libTwoTotals : Lib :=
  sampleLib [] (fun _ => 5) (fun b _ => if b = "b1" then 5 else 3) (fun _ _ => none)
    (fun _ _ _ => none) (fun _ _ _ => none)

/-- Every file loads with the same size and the later steps complete, but the
comparison filter raises a `std::exception` on the baseline `b1`; against any
other baseline the total difference is 0. -/
def libFirstRaises : Lib where
  Image := String
  read := fun f => .ok f
  size := fun _ i => if i.val < 2 then 5 else 1
  compare := fun b _ => if b = "b1" then .error .std else .ok 0
  rescaleAll := fun _ _ => none
  rescale := fun _ _ _ => none
  write := fun _ _ _ => none

/-- The file `missing.nii` cannot be read; every other file loads with the same
size and every later step completes; the total difference against the baseline
`b1` is 5, against any other baseline 0. -/
def libMixed : Lib :=
  sampleLib ["missing.nii"] (fun _ => 5) (fun b _ => if b = "b1" then 5 else 0)
    (fun _ _ => none) (fun _ _ _ => none) (fun _ _ _ => none)

/-- The argument `--help`, a NUL character, `junk`. -/
def helpThenJunk : String :=
  ("--help".push (Char.ofNat 0)) ++ "junk"

/-! ## Traces -/

theorem callsOf_append (l₁ l₂ : List Event) : callsOf (l₁ ++ l₂) = callsOf l₁ ++ callsOf l₂ := by
  induction l₁ with
  | nil => rfl
  | cons e l ih => cases e <;> simp [callsOf, ih]

theorem writesOf_append (l₁ l₂ : List Event) :
    writesOf (l₁ ++ l₂) = writesOf l₁ ++ writesOf l₂ := by
  induction l₁ with
  | nil => rfl
  | cons e l ih => cases e <;> simp [writesOf, ih]

theorem fileTagsOf_append (l₁ l₂ : List Event) :
    fileTagsOf (l₁ ++ l₂) = fileTagsOf l₁ ++ fileTagsOf l₂ := by
  induction l₁ with
  | nil => rfl
  | cons e l ih => cases e <;> simp [fileTagsOf, ih]

theorem callsOf_guarded_rescale (s : Source) (f : Option Exn) (n : String) :
    callsOf (guarded (.rescale s) f (.rescaleError n)) = [] := by
  cases f <;> rfl

theorem callsOf_guarded_write (m : String) (f : Option Exn) (n : String) :
    callsOf (guarded (.write m) f (.writeError n)) = [] := by
  cases f <;> rfl

theorem writesOf_guarded_rescale (s : Source) (f : Option Exn) (n : String) :
    writesOf (guarded (.rescale s) f (.rescaleError n)) = [] := by
  cases f <;> rfl

theorem writesOf_guarded_write (m : String) (f : Option Exn) (n : String) :
    writesOf (guarded (.write m) f (.writeError n)) = [m] := by
  cases f <;> rfl

theorem fileTagsOf_guarded_rescale (s : Source) (f : Option Exn) (n : String) :
    fileTagsOf (guarded (.rescale s) f (.rescaleError n)) = [] := by
  cases f <;> rfl

theorem fileTagsOf_guarded_write (m : String) (f : Option Exn) (n : String) :
    fileTagsOf (guarded (.write m) f (.writeError n)) = [] := by
  cases f <;> rfl

theorem callsOf_reportArtifacts (lib : Lib) (t b : String) (q : ℚ) (d : Bool) :
    callsOf (reportArtifacts lib t b q d) = [] := by
  cases d <;>
    simp [reportArtifacts, callsOf_append, callsOf_guarded_rescale, callsOf_guarded_write,
      callsOf]

theorem writesOf_reportArtifacts (lib : Lib) (t b : String) (q : ℚ) (d : Bool) :
    writesOf (reportArtifacts lib t b q d)
      = (if d then [t ++ ".diff.png"] else []) ++ [t ++ ".base.png", t ++ ".test.png"] := by
  cases d <;>
    simp [reportArtifacts, writesOf_append, writesOf_guarded_rescale, writesOf_guarded_write,
      writesOf]

theorem fileTagsOf_reportArtifacts (lib : Lib) (t b : String) (q : ℚ) (d : Bool) :
    fileTagsOf (reportArtifacts lib t b q d)
      = (if d then [("DifferenceImage", t ++ ".diff.png")] else [])
        ++ [("BaselineImage", t ++ ".base.png"), ("TestImage", t ++ ".test.png")] := by
  cases d <;>
    simp [reportArtifacts, fileTagsOf_append, fileTagsOf_guarded_rescale,
      fileTagsOf_guarded_write, fileTagsOf]

/-! ## The comparator `RegressionTestImage` -/

theorem statusOfTotal_cases (q : ℚ) : statusOfTotal q = 0 ∨ statusOfTotal q = 1 := by
  unfold statusOfTotal EXIT_FAILURE EXIT_SUCCESS
  split <;> simp

/-- The baseline reader raises an `itk::ExceptionObject`. -/
theorem RegressionTestImage_baseline_unreadable (lib : Lib) (t b : String) (r : Int) (d : Bool)
    (hb : lib.read b = .error .itk) :
    RegressionTestImage lib t b r d = ⟨[.read b, .readError b], .ok 1000⟩ := by
  simp [RegressionTestImage, hb]

/-- The baseline loads, the test reader raises an `itk::ExceptionObject`. -/
theorem RegressionTestImage_test_unreadable (lib : Lib) (t b : String) (r : Int) (d : Bool)
    (bi : lib.Image) (hb : lib.read b = .ok bi) (ht : lib.read t = .error .itk) :
    RegressionTestImage lib t b r d = ⟨[.read b, .read t, .readError t], .ok 1000⟩ := by
  simp [RegressionTestImage, hb, ht]

/-- Both images load, their sizes differ. -/
theorem RegressionTestImage_size_mismatch (lib : Lib) (t b : String) (r : Int) (d : Bool)
    (bi ti : lib.Image) (hb : lib.read b = .ok bi) (ht : lib.read t = .ok ti)
    (hs : lib.size bi ≠ lib.size ti) :
    RegressionTestImage lib t b r d
      = ⟨[.read b, .read t, .sizeMismatch b t], .ok EXIT_FAILURE⟩ := by
  simp [RegressionTestImage, hb, ht, hs]

/-- Both images load with equal sizes and the comparison completes: silent mode. -/
theorem RegressionTestImage_silent (lib : Lib) (t b : String) (d : Bool)
    (bi ti : lib.Image) (q : ℚ) (hb : lib.read b = .ok bi) (ht : lib.read t = .ok ti)
    (hs : lib.size bi = lib.size ti) (hc : lib.compare bi ti = .ok q) :
    RegressionTestImage lib t b 0 d = ⟨[.read b, .read t, .compare], .ok (statusOfTotal q)⟩ := by
  simp [RegressionTestImage, hb, ht, hs, hc]

/-- Both images load with equal sizes, the comparison and the rescale of line 218
complete: reporting mode. -/
theorem RegressionTestImage_report (lib : Lib) (t b : String) (r : Int) (d : Bool)
    (bi ti : lib.Image) (q : ℚ) (hb : lib.read b = .ok bi) (ht : lib.read t = .ok ti)
    (hs : lib.size bi = lib.size ti) (hc : lib.compare bi ti = .ok q) (hr : r ≠ 0)
    (hu : lib.rescaleAll t b = none) :
    RegressionTestImage lib t b r d
      = ⟨[.read b, .read t, .compare, .rescale .difference] ++ reportArtifacts lib t b q d,
         .ok (statusOfTotal q)⟩ := by
  simp [RegressionTestImage, hb, ht, hs, hc, hr, hu]

/-- Both images load with equal sizes and the comparison completes, but the
rescale of line 218 raises: the exception leaves the function. -/
theorem RegressionTestImage_report_raises (lib : Lib) (t b : String) (r : Int) (d : Bool)
    (bi ti : lib.Image) (q : ℚ) (e : Exn) (hb : lib.read b = .ok bi) (ht : lib.read t = .ok ti)
    (hs : lib.size bi = lib.size ti) (hc : lib.compare bi ti = .ok q) (hr : r ≠ 0)
    (hu : lib.rescaleAll t b = some e) :
    RegressionTestImage lib t b r d
      = ⟨[.read b, .read t, .compare, .rescale .difference], .error e⟩ := by
  simp [RegressionTestImage, hb, ht, hs, hc, hr, hu]

/-- Every status `RegressionTestImage` returns is 0, 1 or 1000. -/
theorem RegressionTestImage_status (lib : Lib) (t b : String) (r : Int) (d : Bool) (s : Int)
    (h : (RegressionTestImage lib t b r d).out = .ok s) : s = 0 ∨ s = 1 ∨ s = 1000 := by
  have hq := statusOfTotal_cases
  unfold RegressionTestImage at h
  cases hb : lib.read b with
  | error e =>
    rw [hb] at h
    by_cases he : e = .itk
    · simp [he] at h; omega
    · simp [he] at h
  | ok bi =>
    rw [hb] at h
    cases ht : lib.read t with
    | error e =>
      rw [ht] at h
      by_cases he : e = .itk
      · simp [he] at h; omega
      · simp [he] at h
    | ok ti =>
      rw [ht] at h
      by_cases hs : lib.size bi = lib.size ti
      · cases hc : lib.compare bi ti with
        | error e => simp [hs, hc] at h
        | ok q =>
          by_cases hr : r = 0
          · simp [hs, hc, hr] at h
            rcases hq q with h0 | h0 <;> omega
          · cases hu : lib.rescaleAll t b with
            | some e => simp [hs, hc, hr, hu] at h
            | none =>
              simp [hs, hc, hr, hu] at h
              rcases hq q with h0 | h0 <;> omega
      · simp [hs, EXIT_FAILURE] at h; omega

/-- The trace of `RegressionTestImage` records no call event. -/
theorem callsOf_RegressionTestImage (lib : Lib) (t b : String) (r : Int) (d : Bool) :
    callsOf (RegressionTestImage lib t b r d).trace = [] := by
  unfold RegressionTestImage
  cases hb : lib.read b with
  | error e => by_cases he : e = .itk <;> simp [he, callsOf]
  | ok bi =>
    cases ht : lib.read t with
    | error e => by_cases he : e = .itk <;> simp [he, callsOf]
    | ok ti =>
      by_cases hs : lib.size bi = lib.size ti
      · cases hc : lib.compare bi ti with
        | error e => simp [hs, hc, callsOf]
        | ok q =>
          by_cases hr : r = 0
          · simp [hs, hc, hr, callsOf]
          · cases hu : lib.rescaleAll t b with
            | some e => simp [hs, hc, hr, hu, callsOf]
            | none => simp [hs, hc, hr, hu, callsOf, callsOf_reportArtifacts]
      · simp [hs, callsOf]

/-- In silent mode (`reportErrors = 0`) no writer is run and no file tag printed. -/
theorem RegressionTestImage_silent_quiet (lib : Lib) (t b : String) (d : Bool) :
    writesOf (RegressionTestImage lib t b 0 d).trace = []
      ∧ fileTagsOf (RegressionTestImage lib t b 0 d).trace = [] := by
  unfold RegressionTestImage
  cases hb : lib.read b with
  | error e => by_cases he : e = .itk <;> simp [he, writesOf, fileTagsOf]
  | ok bi =>
    cases ht : lib.read t with
    | error e => by_cases he : e = .itk <;> simp [he, writesOf, fileTagsOf]
    | ok ti =>
      by_cases hs : lib.size bi = lib.size ti
      · cases hc : lib.compare bi ti with
        | error e => simp [hs, hc, writesOf, fileTagsOf]
        | ok q => simp [hs, hc, writesOf, fileTagsOf]
      · simp [hs, writesOf, fileTagsOf]

/-! ## Runs made of calls -/

theorem expand_append (lib : Lib) (cs₁ cs₂ : List (String × String × Int × Bool)) :
    expand lib (cs₁ ++ cs₂) = expand lib cs₁ ++ expand lib cs₂ := by
  induction cs₁ with
  | nil => rfl
  | cons c cs ih => simp [expand, ih]

theorem callsOf_expand (lib : Lib) (cs : List (String × String × Int × Bool)) :
    callsOf (expand lib cs) = cs := by
  induction cs with
  | nil => rfl
  | cons c cs ih =>
    simp [expand, callsOf, callsOf_append, callsOf_RegressionTestImage, ih]

theorem callsOf_call (lib : Lib) (t b : String) (r : Int) (d : Bool) :
    callsOf (callRegressionTestImage lib t b r d).trace = [(t, b, r, d)] := by
  simp [callRegressionTestImage, callsOf, callsOf_RegressionTestImage]

theorem Run.bind_ok {α β : Type} (r : Run α) (f : α → Run β) (a : α) (h : r.out = .ok a) :
    r.bind f = ⟨r.trace ++ (f a).trace, (f a).out⟩ := by
  simp [Run.bind, h]

theorem Run.bind_error {α β : Type} (r : Run α) (f : α → Run β) (e : Exn)
    (h : r.out = .error e) : r.bind f = ⟨r.trace, .error e⟩ := by
  simp [Run.bind, h]

theorem faithful_ret (lib : Lib) {α : Type} (a : α) : Faithful lib (Run.ret a) := by
  simp [Faithful, Run.ret, callsOf, expand]

theorem faithful_call (lib : Lib) (t b : String) (r : Int) (d : Bool) :
    Faithful lib (callRegressionTestImage lib t b r d) := by
  refine ⟨?_, ?_, ?_⟩
  · rw [callsOf_call]
    simp [callRegressionTestImage, expand]
  · intro v hv c hc
    rw [callsOf_call] at hc
    simp at hc
    subst hc
    exact ⟨v, hv⟩
  · intro e he
    refine ⟨(t, b, r, d), ?_, he⟩
    rw [callsOf_call]
    simp

theorem faithful_bind (lib : Lib) {α β : Type} (r : Run α) (f : α → Run β)
    (hr : Faithful lib r) (hf : ∀ a, Faithful lib (f a)) : Faithful lib (r.bind f) := by
  obtain ⟨hr1, hr2, hr3⟩ := hr
  cases h : r.out with
  | error e =>
    rw [Run.bind_error r f e h]
    refine ⟨hr1, ?_, ?_⟩
    · intro v hv
      simp at hv
    · intro e' he'
      simp at he'
      subst he'
      exact hr3 e h
  | ok a =>
    rw [Run.bind_ok r f a h]
    obtain ⟨hf1, hf2, hf3⟩ := hf a
    refine ⟨?_, ?_, ?_⟩
    · simp only [callsOf_append, expand_append]
      rw [← hr1, ← hf1]
    · intro v hv c hc
      simp only [callsOf_append, List.mem_append] at hc
      rcases hc with hc | hc
      · exact hr2 a h c hc
      · exact hf2 v hv c hc
    · intro e he
      obtain ⟨c, hc, hce⟩ := hf3 e he
      refine ⟨c, ?_, hce⟩
      simp only [callsOf_append, List.mem_append]
      exact Or.inr hc

theorem faithful_baselineLoop (lib : Lib) (argv : List String) (n : Nat) :
    ∀ (i : Nat) (best : Int) (idx : Nat), Faithful lib (baselineLoop lib argv n i best idx) := by
  induction n with
  | zero =>
    intro i best idx
    exact faithful_ret lib _
  | succ n ih =>
    intro i best idx
    unfold baselineLoop
    apply faithful_bind lib _ _ (faithful_call lib _ _ _ _)
    intro cur
    dsimp only
    split <;> split <;> first | exact faithful_ret lib _ | exact ih _ _ _

theorem faithful_selectBaseline (lib : Lib) (argv : List String) :
    Faithful lib (selectBaseline lib argv) := by
  unfold selectBaseline
  split
  · exact faithful_bind lib _ _ (faithful_call lib _ _ _ _) (fun _ => faithful_ret lib _)
  · exact faithful_baselineLoop lib argv _ _ _ _

theorem faithful_tryBlock (lib : Lib) (argv : List String) :
    Faithful lib (tryBlock lib argv) := by
  unfold tryBlock
  apply faithful_bind lib _ _ (faithful_selectBaseline lib argv)
  intro sel
  apply faithful_bind lib
  · split <;> exact faithful_call lib _ _ _ _
  · exact fun _ => faithful_ret lib _

theorem usage_not_mem_guarded (a l : Event) (f : Option Exn) (ha : a ≠ .usage)
    (hl : l ≠ .usage) : Event.usage ∉ guarded a f l := by
  cases f <;> simp [guarded, ha.symm, hl.symm]

theorem usage_not_mem_reportArtifacts (lib : Lib) (t b : String) (q : ℚ) (d : Bool) :
    Event.usage ∉ reportArtifacts lib t b q d := by
  have hg : ∀ (a l : Event) (f : Option Exn), a ≠ .usage → l ≠ .usage →
      (Event.usage ∈ guarded a f l ↔ False) :=
    fun a l f ha hl => iff_false_intro (usage_not_mem_guarded a l f ha hl)
  cases d <;> simp [reportArtifacts, hg]

theorem usage_not_mem_RegressionTestImage (lib : Lib) (t b : String) (r : Int) (d : Bool) :
    Event.usage ∉ (RegressionTestImage lib t b r d).trace := by
  unfold RegressionTestImage
  cases hb : lib.read b with
  | error e => by_cases he : e = .itk <;> simp [he]
  | ok bi =>
    cases ht : lib.read t with
    | error e => by_cases he : e = .itk <;> simp [he]
    | ok ti =>
      by_cases hs : lib.size bi = lib.size ti
      · cases hc : lib.compare bi ti with
        | error e => simp [hs, hc]
        | ok q =>
          by_cases hr : r = 0
          · simp [hs, hc, hr]
          · cases hu : lib.rescaleAll t b with
            | some e => simp [hs, hc, hr, hu]
            | none => simp [hs, hc, hr, hu, usage_not_mem_reportArtifacts]
      · simp [hs]

theorem usage_not_mem_expand (lib : Lib) (cs : List (String × String × Int × Bool)) :
    Event.usage ∉ expand lib cs := by
  induction cs with
  | nil => simp [expand]
  | cons c cs ih => simp [expand, usage_not_mem_RegressionTestImage, ih]

/-! ## The driver on an argument vector -/

theorem driver_of_ok (lib : Lib) (args : List String) (h2 : 2 ≤ args.length) (s : Int)
    (h : (tryBlock lib ("ImageCompare" :: args)).out = .ok s) :
    driver lib ("ImageCompare" :: args)
      = ⟨(tryBlock lib ("ImageCompare" :: args)).trace ++ [.printStatus s], s⟩ := by
  have h3 : ¬ (args.length + 1 < 3) := by omega
  simp [driver, h3, h]

theorem driver_of_error (lib : Lib) (args : List String) (h2 : 2 ≤ args.length) (e : Exn)
    (h : (tryBlock lib ("ImageCompare" :: args)).out = .error e) :
    driver lib ("ImageCompare" :: args)
      = ⟨(tryBlock lib ("ImageCompare" :: args)).trace ++ [.caught e, .printStatus (-1)],
         -1⟩ := by
  have h3 : ¬ (args.length + 1 < 3) := by omega
  simp [driver, h3, h]

theorem callsOf_driver (lib : Lib) (args : List String) (h2 : 2 ≤ args.length) :
    callsOf (driver lib ("ImageCompare" :: args)).trace
      = callsOf (tryBlock lib ("ImageCompare" :: args)).trace := by
  cases h : (tryBlock lib ("ImageCompare" :: args)).out with
  | ok s => rw [driver_of_ok lib args h2 s h]; simp [callsOf_append, callsOf]
  | error e => rw [driver_of_error lib args h2 e h]; simp [callsOf_append, callsOf]

/-! ## The loop over the candidates -/

theorem baselineLoop_eq_scan (lib : Lib) (argv : List String) (n : Nat) :
    ∀ (i : Nat) (best : Int) (idx : Nat), n = argv.length - i →
      baselineLoop lib argv n i best idx
        = scan lib (argv.getD 1 "") (argv.drop i) i best idx := by
  induction n with
  | zero =>
    intro i best idx h
    have hd : argv.drop i = [] := List.drop_eq_nil_of_le (by omega)
    rw [hd]
    rfl
  | succ n ih =>
    intro i best idx h
    have hi : i < argv.length := by omega
    have hd : argv.drop i = argv.getD i "" :: argv.drop (i + 1) := by
      rw [List.drop_eq_getElem_cons hi, List.getD_eq_getElem _ _ hi]
    rw [hd]
    unfold baselineLoop scan
    congr 1
    funext cur
    dsimp only
    rw [ih (i + 1) _ _ (by omega)]

theorem scan_cons_error (lib : Lib) (t b : String) (rest : List String) (i : Nat) (B : Int)
    (I : Nat) (e : Exn) (h : (RegressionTestImage lib t b 0 false).out = .error e) :
    scan lib t (b :: rest) i B I
      = ⟨(callRegressionTestImage lib t b 0 false).trace, .error e⟩ := by
  unfold scan
  rw [Run.bind_error _ _ e (show (callRegressionTestImage lib t b 0 false).out = _ from h)]

theorem scan_cons_stop (lib : Lib) (t b : String) (rest : List String) (i : Nat) (B : Int)
    (I : Nat) (cur : Int) (h : (RegressionTestImage lib t b 0 false).out = .ok cur)
    (hB : 0 < B) (h0 : cur = 0) :
    scan lib t (b :: rest) i B I
      = ⟨(callRegressionTestImage lib t b 0 false).trace, .ok (0, i)⟩ := by
  unfold scan
  rw [Run.bind_ok _ _ cur (show (callRegressionTestImage lib t b 0 false).out = _ from h)]
  subst h0
  simp [hB, Run.ret]

theorem scan_cons_better (lib : Lib) (t b : String) (rest : List String) (i : Nat) (B : Int)
    (I : Nat) (cur : Int) (h : (RegressionTestImage lib t b 0 false).out = .ok cur)
    (hlt : cur < B) (h0 : cur ≠ 0) :
    scan lib t (b :: rest) i B I
      = ⟨(callRegressionTestImage lib t b 0 false).trace
            ++ (scan lib t rest (i + 1) cur i).trace,
         (scan lib t rest (i + 1) cur i).out⟩ := by
  rw [scan, Run.bind_ok _ _ cur (show (callRegressionTestImage lib t b 0 false).out = _ from h)]
  simp [hlt, h0]

theorem scan_cons_worse (lib : Lib) (t b : String) (rest : List String) (i : Nat) (B : Int)
    (I : Nat) (cur : Int) (h : (RegressionTestImage lib t b 0 false).out = .ok cur)
    (hB : 0 < B) (hlt : ¬ cur < B) :
    scan lib t (b :: rest) i B I
      = ⟨(callRegressionTestImage lib t b 0 false).trace
            ++ (scan lib t rest (i + 1) B I).trace,
         (scan lib t rest (i + 1) B I).out⟩ := by
  rw [scan, Run.bind_ok _ _ cur (show (callRegressionTestImage lib t b 0 false).out = _ from h)]
  have hB0 : B ≠ 0 := by omega
  simp [hlt, hB0]

/-- What the loop returns: either nothing improved on the initial status, or the
selected index points at a candidate whose silent status is the returned one;
the returned status is 0 or a lower bound of the statuses of all candidates. -/
theorem scan_value (lib : Lib) (t : String) (l : List String) :
    ∀ (i : Nat) (B : Int) (I : Nat) (s : Int) (j : Nat), 0 < B →
      (scan lib t l i B I).out = .ok (s, j) →
      ((s = B ∧ j = I)
        ∨ (s < B ∧ ∃ p, p < l.length ∧ j = i + p
            ∧ (RegressionTestImage lib t (l.getD p "") 0 false).out = .ok s))
      ∧ (s = 0 ∨ ∀ b ∈ l, ∃ s', (RegressionTestImage lib t b 0 false).out = .ok s' ∧ s ≤ s')
      ∧ s ≤ B := by
  induction l with
  | nil =>
    intro i B I s j _ h
    simp [scan, Run.ret] at h
    obtain ⟨h1, h2⟩ := h
    subst h1 h2
    simp
  | cons b rest ih =>
    intro i B I s j hB h
    cases hb : (RegressionTestImage lib t b 0 false).out with
    | error e =>
      rw [scan_cons_error lib t b rest i B I e hb] at h
      simp at h
    | ok cur =>
      have hcur := RegressionTestImage_status lib t b 0 false cur hb
      by_cases h0 : cur = 0
      · rw [scan_cons_stop lib t b rest i B I cur hb hB h0] at h
        simp at h
        obtain ⟨h1, h2⟩ := h
        subst h1 h2
        refine ⟨Or.inr ⟨hB, 0, by simp, rfl, ?_⟩, Or.inl rfl, le_of_lt hB⟩
        simpa [h0] using hb
      · by_cases hlt : cur < B
        · rw [scan_cons_better lib t b rest i B I cur hb hlt h0] at h
          have hc0 : 0 < cur := by omega
          obtain ⟨ih1, ih2, ih3⟩ := ih (i + 1) cur i s j hc0 h
          refine ⟨Or.inr ⟨by omega, ?_⟩, ?_, by omega⟩
          · rcases ih1 with ⟨h1, h2⟩ | ⟨h1, p, hp, hj, hout⟩
            · exact ⟨0, by simp, by omega, by simpa [h1] using hb⟩
            · exact ⟨p + 1, by simp; omega, by omega, by simpa using hout⟩
          · rcases ih2 with h1 | h1
            · exact Or.inl h1
            · refine Or.inr ?_
              intro b' hb'
              rcases List.mem_cons.mp hb' with rfl | hb'
              · exact ⟨cur, hb, ih3⟩
              · exact h1 b' hb'
        · rw [scan_cons_worse lib t b rest i B I cur hb hB hlt] at h
          obtain ⟨ih1, ih2, ih3⟩ := ih (i + 1) B I s j hB h
          refine ⟨?_, ?_, ih3⟩
          · rcases ih1 with h1 | ⟨h1, p, hp, hj, hout⟩
            · exact Or.inl h1
            · exact Or.inr ⟨h1, p + 1, by simp; omega, by omega, by simpa using hout⟩
          · rcases ih2 with h1 | h1
            · exact Or.inl h1
            · refine Or.inr ?_
              intro b' hb'
              rcases List.mem_cons.mp hb' with rfl | hb'
              · exact ⟨cur, hb, by omega⟩
              · exact h1 b' hb'

/-- A candidate that was evaluated and is a perfect match ends the loop with
status 0 and is the one selected. -/
theorem scan_perfect (lib : Lib) (t b : String) (l : List String) :
    ∀ (i : Nat) (B : Int) (I : Nat), 0 < B →
      (t, b, (0 : Int), false) ∈ callsOf (scan lib t l i B I).trace →
      (RegressionTestImage lib t b 0 false).out = .ok 0 →
      ∃ p, p < l.length ∧ l.getD p "" = b ∧ (scan lib t l i B I).out = .ok (0, i + p) := by
  induction l with
  | nil =>
    intro i B I _ hmem _
    simp [scan, Run.ret, callsOf] at hmem
  | cons c rest ih =>
    intro i B I hB hmem hb
    cases hc : (RegressionTestImage lib t c 0 false).out with
    | error e =>
      rw [scan_cons_error lib t c rest i B I e hc, callsOf_call] at hmem
      simp at hmem
      subst hmem
      rw [hb] at hc
      simp at hc
    | ok cur =>
      have hcur := RegressionTestImage_status lib t c 0 false cur hc
      by_cases h0 : cur = 0
      · rw [scan_cons_stop lib t c rest i B I cur hc hB h0] at hmem ⊢
        rw [callsOf_call] at hmem
        simp at hmem
        exact ⟨0, by simp, by simp [hmem], rfl⟩
      · have hne : b ≠ c := by
          rintro rfl
          rw [hb] at hc
          simp at hc
          exact h0 hc.symm
        by_cases hlt : cur < B
        · rw [scan_cons_better lib t c rest i B I cur hc hlt h0] at hmem ⊢
          simp only [callsOf_append, callsOf_call, List.mem_append, List.mem_singleton,
            Prod.mk.injEq] at hmem
          rcases hmem with hmem | hmem
          · exact absurd hmem.2.1 hne
          · obtain ⟨p, hp, hg, hout⟩ := ih (i + 1) cur i (by omega) hmem hb
            exact ⟨p + 1, by simp; omega, by simpa using hg, by rw [hout]; congr 2; omega⟩
        · rw [scan_cons_worse lib t c rest i B I cur hc hB hlt] at hmem ⊢
          simp only [callsOf_append, callsOf_call, List.mem_append, List.mem_singleton,
            Prod.mk.injEq] at hmem
          rcases hmem with hmem | hmem
          · exact absurd hmem.2.1 hne
          · obtain ⟨p, hp, hg, hout⟩ := ih (i + 1) B I hB hmem hb
            exact ⟨p + 1, by simp; omega, by simpa using hg, by rw [hout]; congr 2; omega⟩

theorem foldl_min_le (L : List Int) : ∀ B : Int, L.foldl min B ≤ B := by
  induction L with
  | nil => intro B; simp
  | cons x L ih =>
    intro B
    simp only [List.foldl_cons]
    exact le_trans (ih _) (min_le_left _ _)

/-- The calls the loop makes and the pair it returns, when no silent call raises:
`st` gives the silent status of each candidate. -/
theorem scan_calls (lib : Lib) (t : String) (st : String → Int) (l : List String) :
    ∀ (i : Nat) (B : Int) (I : Nat), 0 < B →
      (∀ b ∈ l, (RegressionTestImage lib t b 0 false).out = .ok (st b)) →
      callsOf (scan lib t l i B I).trace
          = (l.take (evaluatedCount (l.map st))).map (fun b => (t, b, (0 : Int), false))
      ∧ (scan lib t l i B I).out
          = .ok ((evaluated (l.map st)).foldl min B,
                 if (evaluated (l.map st)).foldl min B < B
                 then i + earliest ((evaluated (l.map st)).foldl min B) (evaluated (l.map st))
                 else I) := by
  induction l with
  | nil =>
    intro i B I _ _
    simp [scan, Run.ret, callsOf, evaluated, evaluatedCount]
  | cons b rest ih =>
    intro i B I hB hst
    have hb := hst b (List.mem_cons_self _ _)
    have hrest : ∀ b' ∈ rest, (RegressionTestImage lib t b' 0 false).out = .ok (st b') :=
      fun b' hb' => hst b' (List.mem_cons_of_mem _ hb')
    have hcur := RegressionTestImage_status lib t b 0 false (st b) hb
    by_cases h0 : st b = 0
    · rw [scan_cons_stop lib t b rest i B I (st b) hb hB h0]
      have hm : min B 0 = 0 := min_eq_right (le_of_lt hB)
      simp [callsOf_call, evaluated, evaluatedCount, h0, hm, hB, earliest]
    · have hev : evaluated (st b :: rest.map st) = st b :: evaluated (rest.map st) := by
        simp [evaluated, evaluatedCount, h0]
      by_cases hlt : st b < B
      · rw [scan_cons_better lib t b rest i B I (st b) hb hlt h0]
        obtain ⟨ih1, ih2⟩ := ih (i + 1) (st b) i (by omega) hrest
        have hm : min B (st b) = st b := min_eq_right (le_of_lt hlt)
        have hle := foldl_min_le (evaluated (rest.map st)) (st b)
        refine ⟨?_, ?_⟩
        · simp [callsOf_append, callsOf_call, ih1, evaluatedCount, h0]
        · simp only [List.map_cons, hev, List.foldl_cons, hm, ih2, earliest]
          have hF : List.foldl min (st b) (evaluated (rest.map st)) < B := by omega
          simp only [hF, if_true]
          by_cases hFlt : List.foldl min (st b) (evaluated (rest.map st)) < st b
          · have hne : st b ≠ List.foldl min (st b) (evaluated (rest.map st)) := by omega
            simp only [hFlt, if_true, hne, if_false]
            congr 2
            omega
          · have heq : st b = List.foldl min (st b) (evaluated (rest.map st)) := by omega
            simp only [hFlt, if_false]
            rw [if_pos heq]
            rfl
      · rw [scan_cons_worse lib t b rest i B I (st b) hb hB hlt]
        obtain ⟨ih1, ih2⟩ := ih (i + 1) B I hB hrest
        have hm : min B (st b) = B := min_eq_left (by omega)
        refine ⟨?_, ?_⟩
        · simp [callsOf_append, callsOf_call, ih1, evaluatedCount, h0]
        · simp only [List.map_cons, hev, List.foldl_cons, hm, ih2, earliest]
          by_cases hFlt : List.foldl min B (evaluated (rest.map st)) < B
          · have hne : st b ≠ List.foldl min B (evaluated (rest.map st)) := by omega
            simp only [hFlt, if_true, hne, if_false]
            congr 2
            omega
          · simp only [hFlt, if_false]

theorem scan_silent (lib : Lib) (t : String) (l : List String) :
    ∀ (i : Nat) (B : Int) (I : Nat), ∀ c ∈ callsOf (scan lib t l i B I).trace,
      c.2.2.1 = 0 := by
  induction l with
  | nil =>
    intro i B I c hc
    simp [scan, Run.ret, callsOf] at hc
  | cons b rest ih =>
    intro i B I c hc
    unfold scan at hc
    cases hb : (callRegressionTestImage lib t b 0 false).out with
    | error e =>
      rw [Run.bind_error _ _ e hb, callsOf_call] at hc
      simp at hc
      simp [hc]
    | ok cur =>
      rw [Run.bind_ok _ _ cur hb] at hc
      simp only [callsOf_append, callsOf_call, List.mem_append, List.mem_singleton] at hc
      rcases hc with hc | hc
      · simp [hc]
      · split at hc <;> split at hc <;>
          first
          | exact ih _ _ _ c hc
          | (simp [Run.ret, callsOf] at hc)

theorem selectBaseline_eq_scan (lib : Lib) (t : String) (bs : List String) (hne : bs ≠ []) :
    selectBaseline lib ("ImageCompare" :: t :: bs) = scan lib t bs 2 2001 2 := by
  match bs, hne with
  | [b], _ =>
    have h3 : ("ImageCompare" :: t :: [b]).length = 3 := rfl
    unfold selectBaseline
    rw [if_pos h3]
    cases hb : (RegressionTestImage lib t b 0 false).out with
    | error e =>
      rw [scan_cons_error lib t b [] 2 2001 2 e hb]
      exact Run.bind_error _ _ e hb
    | ok cur =>
      have hcur := RegressionTestImage_status lib t b 0 false cur hb
      have hb' : (callRegressionTestImage lib t b 0 false).out = .ok cur := hb
      by_cases h0 : cur = 0
      · rw [scan_cons_stop lib t b [] 2 2001 2 cur hb (by decide) h0]
        simp [Run.bind_ok _ _ cur hb', Run.ret, h0]
      · rw [scan_cons_better lib t b [] 2 2001 2 cur hb (by omega) h0]
        simp [Run.bind_ok _ _ cur hb', Run.ret, scan]
  | b :: b' :: rest, _ =>
    have h3 : ¬ ("ImageCompare" :: t :: b :: b' :: rest).length = 3 := by simp
    unfold selectBaseline
    rw [if_neg h3]
    rw [baselineLoop_eq_scan lib _ _ 2 2001 2 (by simp)]
    simp

/-- The calls of the `try` block once the loop has returned `(s, p + 2)`: those of
the loop, then the reporting call on candidate `p`. -/
theorem tryBlock_of_scan (lib : Lib) (t : String) (bs : List String) (hne : bs ≠ [])
    (s : Int) (p : Nat) (h : (scan lib t bs 2 2001 2).out = .ok (s, p + 2)) :
    (tryBlock lib ("ImageCompare" :: t :: bs)).trace
        = (scan lib t bs 2 2001 2).trace
          ++ (callRegressionTestImage lib t (bs.getD p "") 1 (decide (s ≠ 0))).trace
    ∧ (∀ v, (RegressionTestImage lib t (bs.getD p "") 1 (decide (s ≠ 0))).out = .ok v →
        (tryBlock lib ("ImageCompare" :: t :: bs)).out = .ok s)
    ∧ (∀ e, (RegressionTestImage lib t (bs.getD p "") 1 (decide (s ≠ 0))).out = .error e →
        (tryBlock lib ("ImageCompare" :: t :: bs)).out = .error e) := by
  unfold tryBlock
  rw [selectBaseline_eq_scan lib t bs hne, Run.bind_ok _ _ (s, p + 2) h]
  have hg : ("ImageCompare" :: t :: bs).getD (p + 2) "" = bs.getD p "" := by simp
  have hg1 : ("ImageCompare" :: t :: bs).getD 1 "" = t := by simp
  simp only [hg, hg1]
  generalize bs.getD p "" = b
  by_cases h0 : s = 0
  · simp only [h0, if_true, ne_eq, not_true_eq_false, decide_False]
    cases hr : (callRegressionTestImage lib t b 1 false).out with
    | error e =>
      have hr' : (RegressionTestImage lib t b 1 false).out = .error e := hr
      rw [Run.bind_error _ _ e hr]
      simp [hr']
    | ok v =>
      have hr' : (RegressionTestImage lib t b 1 false).out = .ok v := hr
      rw [Run.bind_ok _ _ v hr]
      simp [hr', Run.ret]
  · simp only [h0, if_false, ne_eq, not_false_eq_true, decide_True]
    cases hr : (callRegressionTestImage lib t b 1 true).out with
    | error e =>
      have hr' : (RegressionTestImage lib t b 1 true).out = .error e := hr
      rw [Run.bind_error _ _ e hr]
      simp [hr']
    | ok v =>
      have hr' : (RegressionTestImage lib t b 1 true).out = .ok v := hr
      rw [Run.bind_ok _ _ v hr]
      simp [hr', Run.ret]

/-- If the `try` block ends normally, so did the loop, with the same status. -/
theorem scan_of_tryBlock_ok (lib : Lib) (t : String) (bs : List String) (hne : bs ≠ [])
    (s : Int) (h : (tryBlock lib ("ImageCompare" :: t :: bs)).out = .ok s) :
    ∃ j, (scan lib t bs 2 2001 2).out = .ok (s, j) := by
  unfold tryBlock at h
  rw [selectBaseline_eq_scan lib t bs hne] at h
  cases hs : (scan lib t bs 2 2001 2).out with
  | error e =>
    rw [Run.bind_error _ _ e hs] at h
    simp at h
  | ok sel =>
    rw [Run.bind_ok _ _ sel hs] at h
    dsimp only at h
    refine ⟨sel.2, ?_⟩
    generalize (if sel.1 = 0 then
        callRegressionTestImage lib (("ImageCompare" :: t :: bs).getD 1 "")
          (("ImageCompare" :: t :: bs).getD sel.2 "") 1 false
      else
        callRegressionTestImage lib (("ImageCompare" :: t :: bs).getD 1 "")
          (("ImageCompare" :: t :: bs).getD sel.2 "") 1 true) = rep at h
    cases hr : rep.out with
    | error e =>
      rw [Run.bind_error _ _ e hr] at h
      simp at h
    | ok v =>
      rw [Run.bind_ok _ _ v hr] at h
      simp [Run.ret] at h
      rw [← h]

theorem faithful_scan (lib : Lib) (t : String) (bs : List String) (hne : bs ≠ []) :
    Faithful lib (scan lib t bs 2 2001 2) := by
  rw [← selectBaseline_eq_scan lib t bs hne]
  exact faithful_selectBaseline lib _

theorem writesOf_expand_silent (lib : Lib) (cs : List (String × String × Int × Bool))
    (h : ∀ c ∈ cs, c.2.2.1 = 0) :
    writesOf (expand lib cs) = [] ∧ fileTagsOf (expand lib cs) = [] := by
  induction cs with
  | nil => simp [expand, writesOf, fileTagsOf]
  | cons c cs ih =>
    obtain ⟨t, b, r, d⟩ := c
    have hr : r = 0 := h (t, b, r, d) (List.mem_cons_self _ _)
    subst hr
    obtain ⟨ih1, ih2⟩ := ih (fun c hc => h c (List.mem_cons_of_mem _ hc))
    have hq := RegressionTestImage_silent_quiet lib t b d
    simp [expand, writesOf, fileTagsOf, writesOf_append, fileTagsOf_append, hq.1, hq.2,
      ih1, ih2]

theorem scan_quiet (lib : Lib) (t : String) (bs : List String) (hne : bs ≠ []) :
    writesOf (scan lib t bs 2 2001 2).trace = []
      ∧ fileTagsOf (scan lib t bs 2 2001 2).trace = [] := by
  rw [(faithful_scan lib t bs hne).1]
  exact writesOf_expand_silent lib _ (scan_silent lib t bs 2 2001 2)

/-- A silent call recorded in the trace of the `try` block was made by the loop. -/
theorem tryBlock_silent_call (lib : Lib) (t : String) (bs : List String) (hne : bs ≠ [])
    (c : String × String × Int × Bool)
    (hc : c ∈ callsOf (tryBlock lib ("ImageCompare" :: t :: bs)).trace) (h0 : c.2.2.1 = 0) :
    c ∈ callsOf (scan lib t bs 2 2001 2).trace := by
  unfold tryBlock at hc
  rw [selectBaseline_eq_scan lib t bs hne] at hc
  cases hs : (scan lib t bs 2 2001 2).out with
  | error e =>
    rw [Run.bind_error _ _ e hs] at hc
    exact hc
  | ok sel =>
    rw [Run.bind_ok _ _ sel hs] at hc
    simp only [callsOf_append, List.mem_append] at hc
    rcases hc with hc | hc
    · exact hc
    · exfalso
      have hrep : ∀ (b : String) (d : Bool),
          c ∈ callsOf ((callRegressionTestImage lib
              (("ImageCompare" :: t :: bs).getD 1 "") b 1 d).bind
              fun _ => Run.ret sel.1).trace → False := by
        intro b d hmem
        cases hr : (callRegressionTestImage lib
            (("ImageCompare" :: t :: bs).getD 1 "") b 1 d).out with
        | error e =>
          rw [Run.bind_error _ _ e hr, callsOf_call] at hmem
          simp at hmem
          rw [hmem] at h0
          simp at h0
        | ok v =>
          rw [Run.bind_ok _ _ v hr] at hmem
          simp only [callsOf_append, callsOf_call] at hmem
          simp [Run.ret, callsOf] at hmem
          rw [hmem] at h0
          simp at h0
      split at hc
      · exact hrep _ _ hc
      · exact hrep _ _ hc

theorem string_append_left_cancel (t a b : String) (h : t ++ a = t ++ b) : a = b := by
  have hd := congrArg String.data h
  simp only [String.data_append] at hd
  exact String.ext (List.append_cancel_left hd)

/-! ## Which candidate is selected -/

/-- The loop entered with best status 1, when every candidate's silent status is
0 (`z` true) or 1: it stops at the first candidate with status 0, and selects
nothing new when there is none. -/
theorem scan_first_perfect (lib : Lib) (t : String) (z : String → Bool) (l : List String) :
    ∀ (i I : Nat),
      (∀ b ∈ l, (RegressionTestImage lib t b 0 false).out = .ok (if z b then 0 else 1)) →
      (∀ b0, l.find? z = some b0 →
          ∃ p, p < l.length ∧ l.getD p "" = b0 ∧ (scan lib t l i 1 I).out = .ok (0, i + p))
      ∧ (l.find? z = none → (scan lib t l i 1 I).out = .ok (1, I)) := by
  induction l with
  | nil =>
    intro i I _
    simp [scan, Run.ret]
  | cons c rest ih =>
    intro i I h
    have hc := h c (List.mem_cons_self _ _)
    have hrest : ∀ b ∈ rest,
        (RegressionTestImage lib t b 0 false).out = .ok (if z b then 0 else 1) :=
      fun b hb => h b (List.mem_cons_of_mem _ hb)
    by_cases hz : z c = true
    · simp only [hz, if_true] at hc
      rw [scan_cons_stop lib t c rest i 1 I 0 hc (by decide) rfl]
      refine ⟨?_, ?_⟩
      · intro b0 hb0
        rw [List.find?_cons_of_pos _ hz] at hb0
        simp at hb0
        exact ⟨0, by simp, by simp [hb0], rfl⟩
      · intro hn
        rw [List.find?_cons_of_pos _ hz] at hn
        simp at hn
    · simp only [hz] at hc
      rw [scan_cons_worse lib t c rest i 1 I 1 hc (by decide) (by decide)]
      obtain ⟨ih1, ih2⟩ := ih (i + 1) I hrest
      refine ⟨?_, ?_⟩
      · intro b0 hb0
        rw [List.find?_cons_of_neg _ hz] at hb0
        obtain ⟨p, hp, hg, hout⟩ := ih1 b0 hb0
        exact ⟨p + 1, by simp; omega, by simpa using hg, by rw [hout]; congr 2; omega⟩
      · intro hn
        rw [List.find?_cons_of_neg _ hz] at hn
        exact ih2 hn

/-- The whole loop, when every candidate's silent status is 0 or 1: the selected
candidate is the first with status 0 and, when there is none, the first of the
list. -/
theorem select_first_perfect (lib : Lib) (t : String) (z : String → Bool) (bs : List String)
    (hne : bs ≠ [])
    (h : ∀ b ∈ bs, (RegressionTestImage lib t b 0 false).out = .ok (if z b then 0 else 1)) :
    ∃ p s, bs.getD p "" = (bs.find? z).getD (bs.headD "")
      ∧ (scan lib t bs 2 2001 2).out = .ok (s, p + 2) := by
  match bs, hne with
  | c :: rest, _ =>
    have hc := h c (List.mem_cons_self _ _)
    have hrest : ∀ b ∈ rest,
        (RegressionTestImage lib t b 0 false).out = .ok (if z b then 0 else 1) :=
      fun b hb => h b (List.mem_cons_of_mem _ hb)
    by_cases hz : z c = true
    · simp only [hz, if_true] at hc
      rw [scan_cons_stop lib t c rest 2 2001 2 0 hc (by decide) rfl]
      exact ⟨0, 0, by simp [List.find?_cons_of_pos _ hz], rfl⟩
    · simp only [hz] at hc
      rw [scan_cons_better lib t c rest 2 2001 2 1 hc (by decide) (by decide)]
      obtain ⟨h1, h2⟩ := scan_first_perfect lib t z rest 3 2 hrest
      rw [List.find?_cons_of_neg _ hz]
      cases hf : rest.find? z with
      | none => exact ⟨0, 1, by simp, h2 hf⟩
      | some b0 =>
        obtain ⟨p, _, hg, hout⟩ := h1 b0 hf
        exact ⟨p + 1, 0, by simpa using hg, by rw [hout]; congr 2; omega⟩

theorem evaluatedCount_le_length (sts : List Int) : evaluatedCount sts ≤ sts.length := by
  induction sts with
  | nil => simp [evaluatedCount]
  | cons x l ih =>
    simp only [evaluatedCount, List.length_cons]
    split <;> omega

theorem evaluated_cons (x : Int) (l : List Int) :
    evaluated (x :: l) = x :: (if x = 0 then [] else evaluated l) := by
  by_cases h : x = 0 <;> simp [evaluated, evaluatedCount, h]

theorem foldl_min_mem (L : List Int) : ∀ B : Int, L.foldl min B = B ∨ L.foldl min B ∈ L := by
  induction L with
  | nil => intro B; simp
  | cons x L ih =>
    intro B
    simp only [List.foldl_cons, List.mem_cons]
    rcases ih (min B x) with h | h
    · rw [h]
      rcases min_choice B x with hm | hm
      · exact Or.inl hm
      · exact Or.inr (Or.inl hm)
    · exact Or.inr (Or.inr h)

theorem minStatus_mem (L : List Int) (hne : L ≠ []) : minStatus L ∈ L := by
  match L, hne with
  | x :: l, _ =>
    simp only [minStatus, List.mem_cons]
    exact foldl_min_mem l x

theorem earliest_lt_length (m : Int) (L : List Int) (h : m ∈ L) : earliest m L < L.length := by
  induction L with
  | nil => simp at h
  | cons x l ih =>
    simp only [earliest, List.length_cons]
    by_cases hx : x = m
    · simp [hx]
    · simp only [hx, if_false]
      rcases List.mem_cons.mp h with h' | h'
      · exact absurd h'.symm hx
      · have := ih h'
        omega

/-- With the initial value 2001 of `bestBaselineStatus`, the status the loop
computes is the minimum of the statuses it evaluates. -/
theorem evaluated_fold (sts : List Int) (hne : sts ≠ []) (hle : ∀ x ∈ sts, x ≤ 1000) :
    (evaluated sts).foldl min 2001 = minStatus (evaluated sts)
    ∧ minStatus (evaluated sts) < 2001
    ∧ minStatus (evaluated sts) ∈ evaluated sts := by
  match sts, hne with
  | x :: l, _ =>
    have hx : x ≤ 1000 := hle x (List.mem_cons_self _ _)
    rw [evaluated_cons]
    have hm : min 2001 x = x := min_eq_right (by omega)
    have hF := foldl_min_le (if x = 0 then [] else evaluated l) x
    refine ⟨?_, ?_, ?_⟩
    · simp only [List.foldl_cons, hm, minStatus]
    · simp only [minStatus]
      omega
    · exact minStatus_mem _ (by simp)

/-! ## From the arguments to the argument vector -/

theorem c_str_command : c_str "ImageCompare" = "ImageCompare" := by decide

/-- An argument without NUL character is passed on unchanged. -/
theorem c_str_eq_self (s : String) (h : Char.ofNat 0 ∉ s.data) : c_str s = s := by
  have hd : s.data.takeWhile (fun c => decide (c ≠ Char.ofNat 0)) = s.data := by
    rw [List.takeWhile_eq_self_iff]
    intro c hc
    have hne : c ≠ Char.ofNat 0 := fun h0 => h (h0 ▸ hc)
    simpa using hne
  exact String.ext hd

theorem ImageCompare_eq (lib : Lib) (args : List String) :
    ImageCompare lib args = driver lib ("ImageCompare" :: args.map c_str) := by
  simp [ImageCompare, c_str_command]

/-- Every call the loop makes has the test file as its first argument. -/
theorem scan_test (lib : Lib) (t : String) (l : List String) :
    ∀ (i : Nat) (B : Int) (I : Nat), ∀ c ∈ callsOf (scan lib t l i B I).trace, c.1 = t := by
  induction l with
  | nil =>
    intro i B I c hc
    simp [scan, Run.ret, callsOf] at hc
  | cons b rest ih =>
    intro i B I c hc
    unfold scan at hc
    cases hb : (callRegressionTestImage lib t b 0 false).out with
    | error e =>
      rw [Run.bind_error _ _ e hb, callsOf_call] at hc
      simp at hc
      simp [hc]
    | ok cur =>
      rw [Run.bind_ok _ _ cur hb] at hc
      simp only [callsOf_append, callsOf_call, List.mem_append, List.mem_singleton] at hc
      rcases hc with hc | hc
      · simp [hc]
      · split at hc <;> split at hc <;>
          first
          | exact ih _ _ _ c hc
          | (simp [Run.ret, callsOf] at hc)

/-! ## Results on the argument vector -/

/-- The status returned is a lower bound of the silent statuses of the candidates,
and it is 0 exactly when a candidate has status 0 and no call made raises. -/
theorem driver_best_status (lib : Lib) (t : String) (bs : List String) (hne : bs ≠ []) :
    (∀ b ∈ bs, ∀ s, (RegressionTestImage lib t b 0 false).out = .ok s →
        (driver lib ("ImageCompare" :: t :: bs)).status ≤ s)
    ∧ ((driver lib ("ImageCompare" :: t :: bs)).status = 0 ↔
        (∃ b ∈ bs, (RegressionTestImage lib t b 0 false).out = .ok 0)
        ∧ ∀ c ∈ callsOf (driver lib ("ImageCompare" :: t :: bs)).trace,
            ∃ s, (RegressionTestImage lib c.1 c.2.1 c.2.2.1 c.2.2.2).out = .ok s) := by
  have h2 : 2 ≤ (t :: bs).length := by
    cases bs with
    | nil => exact absurd rfl hne
    | cons b rest => simp
  rw [callsOf_driver lib _ h2]
  cases h : (tryBlock lib ("ImageCompare" :: t :: bs)).out with
  | error e =>
    rw [driver_of_error lib _ h2 e h]
    refine ⟨?_, ?_, ?_⟩
    · intro b _ s hs
      have := RegressionTestImage_status lib t b 0 false s hs
      show (-1 : Int) ≤ s
      omega
    · intro h0
      simp at h0
    · rintro ⟨_, hall⟩
      obtain ⟨c, hc, hce⟩ := (faithful_tryBlock lib _).2.2 e h
      obtain ⟨s, hs⟩ := hall c hc
      rw [hce] at hs
      simp at hs
  | ok s0 =>
    rw [driver_of_ok lib _ h2 s0 h]
    obtain ⟨j, hj⟩ := scan_of_tryBlock_ok lib t bs hne s0 h
    obtain ⟨v1, v2, _⟩ := scan_value lib t bs 2 2001 2 s0 j (by decide) hj
    have hall := (faithful_tryBlock lib ("ImageCompare" :: t :: bs)).2.1 s0 h
    have hnonneg : 0 ≤ s0 := by
      rcases v1 with ⟨h1, _⟩ | ⟨_, p, _, _, hout⟩
      · omega
      · have := RegressionTestImage_status lib t _ 0 false s0 hout
        omega
    refine ⟨?_, ?_, ?_⟩
    · intro b hb s hs
      show s0 ≤ s
      rcases v2 with h1 | h1
      · have := RegressionTestImage_status lib t b 0 false s hs
        omega
      · obtain ⟨s', hs', hle⟩ := h1 b hb
        rw [hs] at hs'
        simp at hs'
        omega
    · intro h0
      have h0' : s0 = 0 := h0
      refine ⟨?_, hall⟩
      rcases v1 with ⟨h1, _⟩ | ⟨_, p, hp, _, hout⟩
      · omega
      · subst h0'
        refine ⟨bs.getD p "", ?_, hout⟩
        rw [List.getD_eq_getElem _ _ hp]
        exact List.getElem_mem _
    · rintro ⟨⟨b, hb, hb0⟩, _⟩
      show s0 = 0
      rcases v2 with h1 | h1
      · exact h1
      · obtain ⟨s', hs', hle⟩ := h1 b hb
        rw [hb0] at hs'
        simp at hs'
        omega

/-- The usage branch: taken exactly when fewer than 2 arguments follow the
command name. -/
theorem driver_usage (lib : Lib) (args : List String) :
    (args.length < 2 →
        (driver lib ("ImageCompare" :: args)).trace = [.usage]
        ∧ callsOf (driver lib ("ImageCompare" :: args)).trace = []
        ∧ (driver lib ("ImageCompare" :: args)).status
            = if args = ["--help"] ∨ args = ["-h"] then EXIT_SUCCESS else EXIT_FAILURE)
    ∧ (2 ≤ args.length → Event.usage ∉ (driver lib ("ImageCompare" :: args)).trace)
    ∧ EXIT_SUCCESS = 0 ∧ EXIT_FAILURE = 1 := by
  refine ⟨?_, ?_, rfl, rfl⟩
  · intro h
    match args, h with
    | [], _ => simp [driver, callsOf]
    | [x], _ =>
      by_cases hx : x = "--help" ∨ x = "-h"
      · simp [driver, callsOf, hx]
      · simp [driver, callsOf, hx]
    | _ :: _ :: _, h => exact absurd h (by simp)
  · intro h2
    have hu : Event.usage ∉ (tryBlock lib ("ImageCompare" :: args)).trace := by
      rw [(faithful_tryBlock lib _).1]
      exact usage_not_mem_expand lib _
    cases h : (tryBlock lib ("ImageCompare" :: args)).out with
    | ok s => rw [driver_of_ok lib args h2 s h]; simp [hu]
    | error e => rw [driver_of_error lib args h2 e h]; simp [hu]

/-- A call that raises makes the driver return -1. -/
theorem driver_exception (lib : Lib) (args : List String)
    (h2 : 2 ≤ args.length)
    (hraise : ∃ c ∈ callsOf (driver lib ("ImageCompare" :: args)).trace, ∃ e,
      (RegressionTestImage lib c.1 c.2.1 c.2.2.1 c.2.2.2).out = .error e) :
    (driver lib ("ImageCompare" :: args)).status = -1
    ∧ (-1 : Int) < 0
    ∧ ∀ t b r d s, (RegressionTestImage lib t b r d).out = .ok s →
        s ≠ -1 ∧ (s = 0 ∨ s = 1 ∨ s = 1000) := by
  refine ⟨?_, by decide, ?_⟩
  · obtain ⟨c, hc, e, he⟩ := hraise
    rw [callsOf_driver lib args h2] at hc
    cases h : (tryBlock lib ("ImageCompare" :: args)).out with
    | ok s =>
      obtain ⟨s', hs'⟩ := (faithful_tryBlock lib _).2.1 s h c hc
      rw [he] at hs'
      simp at hs'
    | error e' => rw [driver_of_error lib args h2 e' h]
  · intro t b r d s hs
    have := RegressionTestImage_status lib t b r d s hs
    exact ⟨by omega, this⟩

/-- A run in which the test file is compared against itself with total
difference 0: the reporting call is made on it with `differences = false`. -/
theorem driver_perfect_match (lib : Lib) (t : String) (bs : List String)
    (img : lib.Image) (hread : lib.read t = .ok img) (hcmp : lib.compare img img = .ok 0)
    (hmade : (t, t, (0 : Int), false) ∈ callsOf (driver lib ("ImageCompare" :: t :: bs)).trace) :
    reportingBaselines (driver lib ("ImageCompare" :: t :: bs)).trace = [t]
    ∧ (t, t, (1 : Int), true) ∉ callsOf (driver lib ("ImageCompare" :: t :: bs)).trace
    ∧ t ++ ".diff.png" ∉ writesOf (driver lib ("ImageCompare" :: t :: bs)).trace
    ∧ (∀ f, ("DifferenceImage", f) ∉ fileTagsOf (driver lib ("ImageCompare" :: t :: bs)).trace)
    ∧ (lib.rescaleAll t t = none →
        (driver lib ("ImageCompare" :: t :: bs)).status = 0
        ∧ writesOf (driver lib ("ImageCompare" :: t :: bs)).trace = [t ++ ".base.png", t ++ ".test.png"]
        ∧ fileTagsOf (driver lib ("ImageCompare" :: t :: bs)).trace
            = [("BaselineImage", t ++ ".base.png"), ("TestImage", t ++ ".test.png")]) := by
  have hne : bs ≠ [] := by
    rintro rfl
    simp only [driver] at hmade
    split at hmade
    · split at hmade <;> simp [callsOf] at hmade
    · rename_i h
      simp at h
  have h2 : 2 ≤ (t :: bs).length := by
    cases bs with
    | nil => exact absurd rfl hne
    | cons b rest => simp
  have hsilent : (RegressionTestImage lib t t 0 false).out = .ok 0 := by
    rw [RegressionTestImage_silent lib t t false img img 0 hread hread rfl hcmp]
    simp [statusOfTotal, EXIT_SUCCESS]
  rw [callsOf_driver lib _ h2] at hmade
  have hmade' := tryBlock_silent_call lib t bs hne _ hmade rfl
  obtain ⟨p, _, hg, hout⟩ := scan_perfect lib t t bs 2 2001 2 (by decide) hmade' hsilent
  have hout' : (scan lib t bs 2 2001 2).out = .ok (0, p + 2) := by
    rw [hout, Nat.add_comm]
  obtain ⟨htr, hok, herr⟩ := tryBlock_of_scan lib t bs hne 0 p hout'
  rw [hg] at htr hok herr
  simp only [ne_eq, not_true_eq_false, decide_False] at htr hok herr
  obtain ⟨hq1, hq2⟩ := scan_quiet lib t bs hne
  have hcalls : callsOf (tryBlock lib ("ImageCompare" :: t :: bs)).trace
      = callsOf (scan lib t bs 2 2001 2).trace ++ [(t, t, 1, false)] := by
    rw [htr, callsOf_append, callsOf_call]
  have hfilter : (callsOf (scan lib t bs 2 2001 2).trace).filter
      (fun c => decide (c.2.2.1 ≠ 0)) = [] := by
    rw [List.filter_eq_nil_iff]
    intro c hc
    simp [scan_silent lib t bs 2 2001 2 c hc]
  have hrep : reportingBaselines (driver lib ("ImageCompare" :: t :: bs)).trace = [t] := by
    unfold reportingBaselines
    rw [callsOf_driver lib _ h2, hcalls, List.filter_append, hfilter]
    simp
  have hnot : (t, t, (1 : Int), true) ∉ callsOf (driver lib ("ImageCompare" :: t :: bs)).trace := by
    rw [callsOf_driver lib _ h2, hcalls]
    intro hmem
    simp only [List.mem_append, List.mem_singleton, Prod.mk.injEq] at hmem
    rcases hmem with hmem | hmem
    · have := scan_silent lib t bs 2 2001 2 _ hmem
      simp at this
    · simp at hmem
  have hdb : t ++ ".diff.png" ≠ t ++ ".base.png" := fun h =>
    absurd (string_append_left_cancel t _ _ h) (by decide)
  have hdt : t ++ ".diff.png" ≠ t ++ ".test.png" := fun h =>
    absurd (string_append_left_cancel t _ _ h) (by decide)
  cases hu : lib.rescaleAll t t with
  | none =>
    have hrti := RegressionTestImage_report lib t t 1 false img img 0 hread hread rfl hcmp
      (by decide) hu
    have hrout : (RegressionTestImage lib t t 1 false).out = .ok (statusOfTotal 0) := by
      rw [hrti]
    have hIC := driver_of_ok lib (t :: bs) h2 0 (hok _ hrout)
    have hw : writesOf (driver lib ("ImageCompare" :: t :: bs)).trace
        = [t ++ ".base.png", t ++ ".test.png"] := by
      rw [hIC]
      simp only [htr, callRegressionTestImage, hrti, writesOf_append, hq1]
      simp [writesOf, writesOf_append, writesOf_reportArtifacts]
    have hf : fileTagsOf (driver lib ("ImageCompare" :: t :: bs)).trace
        = [("BaselineImage", t ++ ".base.png"), ("TestImage", t ++ ".test.png")] := by
      rw [hIC]
      simp only [htr, callRegressionTestImage, hrti, fileTagsOf_append, hq2]
      simp [fileTagsOf, fileTagsOf_append, fileTagsOf_reportArtifacts]
    refine ⟨hrep, hnot, ?_, ?_, ?_⟩
    · rw [hw]
      simp [hdb, hdt]
    · intro f
      rw [hf]
      simp
    · intro _
      exact ⟨by rw [hIC], hw, hf⟩
  | some e =>
    have hrti := RegressionTestImage_report_raises lib t t 1 false img img 0 e hread hread rfl
      hcmp (by decide) hu
    have hrout : (RegressionTestImage lib t t 1 false).out = .error e := by
      rw [hrti]
    have hIC := driver_of_error lib (t :: bs) h2 e (herr _ hrout)
    have hw : writesOf (driver lib ("ImageCompare" :: t :: bs)).trace = [] := by
      rw [hIC]
      simp only [htr, callRegressionTestImage, hrti, writesOf_append, hq1]
      simp [writesOf]
    have hf : fileTagsOf (driver lib ("ImageCompare" :: t :: bs)).trace = [] := by
      rw [hIC]
      simp only [htr, callRegressionTestImage, hrti, fileTagsOf_append, hq2]
      simp [fileTagsOf]
    refine ⟨hrep, hnot, ?_, ?_, ?_⟩
    · rw [hw]
      simp
    · intro f
      rw [hf]
      simp
    · intro h
      simp at h

/-- The baseline of the reporting call when every candidate loads with the size
of the test image and the comparison completes. -/
theorem driver_selected_baseline (lib : Lib) (t : String) (bs : List String) (ti : lib.Image)
    (total : String → ℚ) (h2 : 2 ≤ bs.length) (ht : lib.read t = .ok ti)
    (hb : ∀ b ∈ bs, ∃ bi, lib.read b = .ok bi ∧ lib.size bi = lib.size ti
      ∧ lib.compare bi ti = .ok (total b)) :
    reportingBaselines (driver lib ("ImageCompare" :: t :: bs)).trace
      = [(bs.find? (fun b => decide (total b = 0))).getD (bs.headD "")] := by
  have hne : bs ≠ [] := by
    rintro rfl
    simp at h2
  have hlen : 2 ≤ (t :: bs).length := by simp; omega
  have hst : ∀ b ∈ bs, (RegressionTestImage lib t b 0 false).out
      = .ok (if (fun b => decide (total b = 0)) b then 0 else 1) := by
    intro b hmem
    obtain ⟨bi, h1, h3, h4⟩ := hb b hmem
    rw [RegressionTestImage_silent lib t b false bi ti (total b) h1 ht h3 h4]
    by_cases h0 : total b = 0 <;> simp [statusOfTotal, EXIT_SUCCESS, EXIT_FAILURE, h0]
  obtain ⟨p, s, hg, hout⟩ := select_first_perfect lib t _ bs hne hst
  obtain ⟨htr, _, _⟩ := tryBlock_of_scan lib t bs hne s p hout
  have hfilter : (callsOf (scan lib t bs 2 2001 2).trace).filter
      (fun c => decide (c.2.2.1 ≠ 0)) = [] := by
    rw [List.filter_eq_nil_iff]
    intro c hc
    simp [scan_silent lib t bs 2 2001 2 c hc]
  unfold reportingBaselines
  rw [callsOf_driver lib _ hlen, htr, callsOf_append, callsOf_call, List.filter_append,
    hfilter, hg]
  simp

/-- The calls made when no silent call raises. -/
theorem driver_call_sequence (lib : Lib) (t : String) (bs : List String) (st : String → Int)
    (hne : bs ≠ [])
    (hst : ∀ b ∈ bs, (RegressionTestImage lib t b 0 false).out = .ok (st b)) :
    callsOf (driver lib ("ImageCompare" :: t :: bs)).trace
        = (bs.take (evaluatedCount (bs.map st))).map (fun b => (t, b, (0 : Int), false))
          ++ [(t,
               bs.getD (earliest (minStatus (evaluated (bs.map st))) (evaluated (bs.map st))) "",
               1, decide (minStatus (evaluated (bs.map st)) ≠ 0))]
    ∧ earliest (minStatus (evaluated (bs.map st))) (evaluated (bs.map st))
        < evaluatedCount (bs.map st)
    ∧ evaluatedCount (bs.map st) ≤ bs.length
    ∧ (selectBaseline lib ("ImageCompare" :: t :: bs)).out
        = .ok (minStatus (evaluated (bs.map st)),
               earliest (minStatus (evaluated (bs.map st))) (evaluated (bs.map st)) + 2)
    ∧ earliest (minStatus (evaluated (bs.map st))) (evaluated (bs.map st)) + 2
        < ("ImageCompare" :: t :: bs).length
    ∧ (driver lib ("ImageCompare" :: t :: bs)).status ≠ 2001 := by
  have hlen : 2 ≤ (t :: bs).length := by
    cases bs with
    | nil => exact absurd rfl hne
    | cons b rest => simp
  have hsts : bs.map st ≠ [] := by simpa using hne
  have hle : ∀ x ∈ bs.map st, x ≤ 1000 := by
    intro x hx
    obtain ⟨b, hb, rfl⟩ := List.mem_map.mp hx
    have := RegressionTestImage_status lib t b 0 false (st b) (hst b hb)
    omega
  obtain ⟨hF, hlt, hmem⟩ := evaluated_fold (bs.map st) hsts hle
  obtain ⟨hcalls, hout⟩ := scan_calls lib t st bs 2 2001 2 (by decide) hst
  rw [hF, if_pos hlt, Nat.add_comm] at hout
  obtain ⟨htr, hok, herr⟩ := tryBlock_of_scan lib t bs hne _ _ hout
  have hcount := evaluatedCount_le_length (bs.map st)
  rw [List.length_map] at hcount
  have hearly : earliest (minStatus (evaluated (bs.map st))) (evaluated (bs.map st))
      < evaluatedCount (bs.map st) := by
    have h1 := earliest_lt_length _ _ hmem
    have h2 : (evaluated (bs.map st)).length ≤ evaluatedCount (bs.map st) := by
      unfold evaluated
      exact List.length_take_le _ _
    omega
  refine ⟨?_, hearly, hcount, ?_, ?_, ?_⟩
  · rw [callsOf_driver lib _ hlen, htr, callsOf_append, callsOf_call, hcalls]
  · rw [selectBaseline_eq_scan lib t bs hne, hout]
  · simp only [List.length_cons]
    omega
  · cases hr : (RegressionTestImage lib t
        (bs.getD (earliest (minStatus (evaluated (bs.map st))) (evaluated (bs.map st))) "") 1
        (decide (minStatus (evaluated (bs.map st)) ≠ 0))).out with
    | ok v =>
      rw [driver_of_ok lib _ hlen _ (hok v hr)]
      show minStatus (evaluated (bs.map st)) ≠ 2001
      omega
    | error e =>
      rw [driver_of_error lib _ hlen e (herr e hr)]
      show (-1 : Int) ≠ 2001
      decide

/-! ## Properties of the specification -/

/-- C1, as stated, fails: a candidate has comparison status 0, yet `ImageCompare`
returns -1, not 0.  In the first run the reporting call on the matching candidate
raises (rescale of line 218); in the second the comparison of an earlier
candidate raises, so the matching candidate `b2` is never evaluated. -/
theorem C1_counterexample :
    ((RegressionTestImage libRescaleAllFails "t" "b" 0 false).out = .ok 0
      ∧ (ImageCompare libRescaleAllFails ["t", "b"]).status = -1
      ∧ ¬ ((ImageCompare libRescaleAllFails ["t", "b"]).status = 0
            ↔ ∃ b ∈ ["b"], (RegressionTestImage libRescaleAllFails "t" b 0 false).out = .ok 0))
    ∧ ((RegressionTestImage libFirstRaises "t" "b2" 0 false).out = .ok 0
      ∧ (ImageCompare libFirstRaises ["t", "b1", "b2"]).status = -1
      ∧ ¬ ((ImageCompare libFirstRaises ["t", "b1", "b2"]).status = 0
            ↔ ∃ b ∈ ["b1", "b2"],
                (RegressionTestImage libFirstRaises "t" b 0 false).out = .ok 0)) := by
  have h1 : (ImageCompare libRescaleAllFails ["t", "b"]).status = -1 := by decide
  have h2 : (ImageCompare libFirstRaises ["t", "b1", "b2"]).status = -1 := by decide
  refine ⟨⟨rfl, h1, ?_⟩, ⟨rfl, h2, ?_⟩⟩
  · rw [h1]
    intro h
    have := h.2 ⟨"b", by simp, rfl⟩
    simp at this
  · rw [h2]
    intro h
    have := h.2 ⟨"b2", by simp, rfl⟩
    simp at this

/-- C1 (amended): for every test path and every non-empty list of baseline paths,
the candidates being the baseline arguments as `ImageCompare` passes them on (the
C strings of `argv`), the status `ImageCompare` returns is less than or equal to
the status `RegressionTestImage` yields for each candidate, and it equals 0 if
and only if at least one candidate's comparison status is 0 and no call of
`RegressionTestImage` made by `ImageCompare` raises. -/
theorem C1_best_status (lib : Lib) (t : String) (bs : List String) (hne : bs ≠ []) :
    (∀ b ∈ bs.map c_str, ∀ s, (RegressionTestImage lib (c_str t) b 0 false).out = .ok s →
        (ImageCompare lib (t :: bs)).status ≤ s)
    ∧ ((ImageCompare lib (t :: bs)).status = 0 ↔
        (∃ b ∈ bs.map c_str, (RegressionTestImage lib (c_str t) b 0 false).out = .ok 0)
        ∧ ∀ c ∈ callsOf (ImageCompare lib (t :: bs)).trace,
            ∃ s, (RegressionTestImage lib c.1 c.2.1 c.2.2.1 c.2.2.2).out = .ok s) := by
  rw [ImageCompare_eq, List.map_cons]
  exact driver_best_status lib (c_str t) (bs.map c_str) (by simpa using hne)

theorem C1_best_status_witness :
    ["b1", "same.nii"] ≠ []
    ∧ (ImageCompare libTwoTotals ["t", "b1", "b2"]).status ≤ 1
    ∧ ((ImageCompare libMixed ["t", "b1", "same.nii"]).status = 0 ↔
        (∃ b ∈ ["b1", "same.nii"].map c_str,
            (RegressionTestImage libMixed (c_str "t") b 0 false).out = .ok 0)
        ∧ ∀ c ∈ callsOf (ImageCompare libMixed ["t", "b1", "same.nii"]).trace,
            ∃ s, (RegressionTestImage libMixed c.1 c.2.1 c.2.2.1 c.2.2.2).out = .ok s) :=
  ⟨by decide,
   (C1_best_status libTwoTotals "t" ["b1", "b2"] (by decide)).1 "b2" (by decide) 1 rfl,
   (C1_best_status libMixed "t" ["b1", "same.nii"] (by decide)).2⟩

/-- C2, as stated, fails: the single argument `--help`, NUL, `junk` is equal
neither to `--help` nor to `-h`, yet `ImageCompare` returns `EXIT_SUCCESS`: line
78 reads `argv[1]` as a C string, which ends at the NUL. -/
theorem C2_counterexample :
    [helpThenJunk].length < 2
    ∧ helpThenJunk ≠ "--help" ∧ helpThenJunk ≠ "-h"
    ∧ (ImageCompare libSame [helpThenJunk]).status = EXIT_SUCCESS
    ∧ (ImageCompare libSame [helpThenJunk]).status ≠ EXIT_FAILURE := by
  decide

/-- C2 (amended): for every argument list with fewer than 2 elements
`ImageCompare` only prints the usage text (no call of `RegressionTestImage`,
hence no comparison) and returns `EXIT_FAILURE` = 1, except that it returns
`EXIT_SUCCESS` = 0 when the list is exactly one element whose characters before
its first NUL are `--help` or `-h`; for every argument list with 2 or more
elements the usage text is not printed, whatever the first argument is. -/
theorem C2_usage_branch (lib : Lib) (args : List String) :
    (args.length < 2 →
        (ImageCompare lib args).trace = [.usage]
        ∧ callsOf (ImageCompare lib args).trace = []
        ∧ (ImageCompare lib args).status
            = if args.map c_str = ["--help"] ∨ args.map c_str = ["-h"]
              then EXIT_SUCCESS else EXIT_FAILURE)
    ∧ (2 ≤ args.length → Event.usage ∉ (ImageCompare lib args).trace)
    ∧ EXIT_SUCCESS = 0 ∧ EXIT_FAILURE = 1 := by
  rw [ImageCompare_eq]
  have h := driver_usage lib (args.map c_str)
  rw [List.length_map] at h
  exact h

theorem C2_usage_branch_witness :
    (ImageCompare libSame []).status = 1
    ∧ (ImageCompare libSame ["only.nii"]).status = 1
    ∧ (ImageCompare libSame ["--help"]).status = 0
    ∧ (ImageCompare libSame ["-h"]).status = 0
    ∧ (ImageCompare libSame [helpThenJunk]).status = 0
    ∧ Event.usage ∉ (ImageCompare libSame ["--help", "-h"]).trace :=
  ⟨((C2_usage_branch libSame []).1 (by decide)).2.2,
   ((C2_usage_branch libSame ["only.nii"]).1 (by decide)).2.2,
   ((C2_usage_branch libSame ["--help"]).1 (by decide)).2.2,
   ((C2_usage_branch libSame ["-h"]).1 (by decide)).2.2,
   ((C2_usage_branch libSame [helpThenJunk]).1 (by decide)).2.2,
   (C2_usage_branch libSame ["--help", "-h"]).2.1 (by decide)⟩

/-- C3: for every argument list with at least 2 elements, if a call of
`RegressionTestImage` made by `ImageCompare` (silent or reporting) raises, then
`ImageCompare` returns -1; -1 is negative and differs from every status
`RegressionTestImage` returns (0, 1 or 1000).  `ImageCompare` itself always
returns a status: it is a total function into `Outcome`. -/
theorem C3_exception_returns_minus_one (lib : Lib) (args : List String)
    (h2 : 2 ≤ args.length)
    (hraise : ∃ c ∈ callsOf (ImageCompare lib args).trace, ∃ e,
      (RegressionTestImage lib c.1 c.2.1 c.2.2.1 c.2.2.2).out = .error e) :
    (ImageCompare lib args).status = -1
    ∧ (-1 : Int) < 0
    ∧ ∀ t b r d s, (RegressionTestImage lib t b r d).out = .ok s →
        s ≠ -1 ∧ (s = 0 ∨ s = 1 ∨ s = 1000) := by
  rw [ImageCompare_eq] at hraise ⊢
  exact driver_exception lib (args.map c_str) (by rw [List.length_map]; exact h2) hraise

theorem C3_exception_returns_minus_one_witness :
    (RegressionTestImage libRescaleAllFails "t" "b" 0 false).out = .ok 0
    ∧ (RegressionTestImage libRescaleAllFails "t" "b" 1 false).out = .error .itk
    ∧ (ImageCompare libRescaleAllFails ["t", "b"]).status = -1 :=
  ⟨rfl, rfl,
   (C3_exception_returns_minus_one libRescaleAllFails ["t", "b"] (by decide)
      ⟨("t", "b", 1, false), by decide, .itk, rfl⟩).1⟩

/-- C4: for every pair of paths and all flag values, when the baseline reader
fails (raises the library's `itk::ExceptionObject`), `RegressionTestImage`
returns 1000 and its only actions are the baseline reader run and the message:
the test image is not loaded, nothing is compared, no writer is run; when the
baseline loads and the test reader fails, it returns 1000 after the two reader
runs and the message, again with no comparison and no writer run. -/
theorem C4_load_failure_returns_1000 (lib : Lib) (t b : String) (r : Int) (d : Bool) :
    (lib.read b = .error .itk →
        (RegressionTestImage lib t b r d).out = .ok 1000
        ∧ (RegressionTestImage lib t b r d).trace = [.read b, .readError b]
        ∧ Event.compare ∉ (RegressionTestImage lib t b r d).trace
        ∧ writesOf (RegressionTestImage lib t b r d).trace = [])
    ∧ (∀ bi : lib.Image, lib.read b = .ok bi → lib.read t = .error .itk →
        (RegressionTestImage lib t b r d).out = .ok 1000
        ∧ (RegressionTestImage lib t b r d).trace = [.read b, .read t, .readError t]
        ∧ Event.compare ∉ (RegressionTestImage lib t b r d).trace
        ∧ writesOf (RegressionTestImage lib t b r d).trace = []) := by
  constructor
  · intro hb
    rw [RegressionTestImage_baseline_unreadable lib t b r d hb]
    simp [writesOf]
  · intro bi hb ht
    rw [RegressionTestImage_test_unreadable lib t b r d bi hb ht]
    simp [writesOf]

theorem C4_load_failure_returns_1000_witness :
    (libMissing ["base.nii"]).read "base.nii" = .error .itk
    ∧ (RegressionTestImage (libMissing ["base.nii"]) "test.nii" "base.nii" 1 true).out = .ok 1000
    ∧ (libMissing ["test.nii"]).read "base.nii" = .ok "base.nii"
    ∧ (libMissing ["test.nii"]).read "test.nii" = .error .itk
    ∧ (RegressionTestImage (libMissing ["test.nii"]) "test.nii" "base.nii" 1 true).out
        = .ok 1000 :=
  ⟨rfl,
   ((C4_load_failure_returns_1000 (libMissing ["base.nii"]) "test.nii" "base.nii" 1 true).1
      rfl).1,
   rfl, rfl,
   ((C4_load_failure_returns_1000 (libMissing ["test.nii"]) "test.nii" "base.nii" 1 true).2
      "base.nii" rfl rfl).1⟩

/-- C5: for every pair of loaded images whose sizes differ in at least one of the
6 dimensions, whatever the comparison filter would report and whatever the flags,
`RegressionTestImage` returns `EXIT_FAILURE` = 1 (not 0, not 1000), runs no
comparison and runs no writer. -/
theorem C5_size_mismatch_returns_failure (lib : Lib) (t b : String) (r : Int) (d : Bool)
    (bi ti : lib.Image) (hb : lib.read b = .ok bi) (ht : lib.read t = .ok ti)
    (hs : ∃ i : Fin ITK_TEST_DIMENSION_MAX, lib.size bi i ≠ lib.size ti i) :
    (RegressionTestImage lib t b r d).out = .ok EXIT_FAILURE
    ∧ EXIT_FAILURE = 1 ∧ EXIT_FAILURE ≠ 0 ∧ EXIT_FAILURE ≠ 1000
    ∧ Event.compare ∉ (RegressionTestImage lib t b r d).trace
    ∧ writesOf (RegressionTestImage lib t b r d).trace = [] := by
  have hne : lib.size bi ≠ lib.size ti := by
    obtain ⟨i, hi⟩ := hs
    exact fun h => hi (congrFun h i)
  rw [RegressionTestImage_size_mismatch lib t b r d bi ti hb ht hne]
  simp [writesOf, EXIT_FAILURE]

theorem C5_size_mismatch_returns_failure_witness :
    libSizes.read "B.img" = .ok "B.img" ∧ libSizes.read "A.img" = .ok "A.img"
    ∧ libSizes.size "B.img" 0 = 6 ∧ libSizes.size "A.img" 0 = 5
    ∧ (RegressionTestImage libSizes "A.img" "B.img" 1 true).out = .ok 1
    ∧ writesOf (RegressionTestImage libSizes "A.img" "B.img" 1 true).trace = [] :=
  ⟨rfl, rfl, by decide, by decide,
   (C5_size_mismatch_returns_failure libSizes "A.img" "B.img" 1 true "B.img" "A.img"
      rfl rfl ⟨0, by decide⟩).1,
   (C5_size_mismatch_returns_failure libSizes "A.img" "B.img" 1 true "B.img" "A.img"
      rfl rfl ⟨0, by decide⟩).2.2.2.2.2⟩

/-- C6, as stated, fails: both images load with equal sizes and the comparison
reports total difference 0, yet with `reportErrors = 1` the rescale of line 218,
which is outside every `try`, raises and `RegressionTestImage` returns no status. -/
theorem C6_counterexample :
    libRescaleAllFails.read "b" = .ok "b" ∧ libRescaleAllFails.read "t" = .ok "t"
    ∧ libRescaleAllFails.size "b" = libRescaleAllFails.size "t"
    ∧ libRescaleAllFails.compare "b" "t" = .ok 0
    ∧ (RegressionTestImage libRescaleAllFails "t" "b" 1 false).out = .error .itk
    ∧ (RegressionTestImage libRescaleAllFails "t" "b" 1 false).out ≠ .ok 0 := by
  have h : (RegressionTestImage libRescaleAllFails "t" "b" 1 false).out = .error .itk := rfl
  refine ⟨rfl, rfl, rfl, rfl, h, ?_⟩
  rw [h]
  simp

/-- C6 (amended): for every pair of loaded images with identical sizes on which
the comparison reports a total difference, and for all flag values,
`RegressionTestImage` returns 0 if the total difference is exactly zero and 1
otherwise, provided that when `reportErrors` is non-zero the rescale of line 218
completes.  The status is 0 or 1 and depends on the total difference only
through the test against zero. -/
theorem C6_status_is_zero_test (lib : Lib) (t b : String) (r : Int) (d : Bool)
    (bi ti : lib.Image) (q : ℚ) (hb : lib.read b = .ok bi) (ht : lib.read t = .ok ti)
    (hs : lib.size bi = lib.size ti) (hc : lib.compare bi ti = .ok q)
    (hu : r ≠ 0 → lib.rescaleAll t b = none) :
    (RegressionTestImage lib t b r d).out = .ok (if q = 0 then 0 else 1) := by
  have hq : statusOfTotal q = if q = 0 then 0 else 1 := by
    unfold statusOfTotal EXIT_FAILURE EXIT_SUCCESS
    by_cases h : q = 0 <;> simp [h]
  by_cases hr : r = 0
  · subst hr
    rw [RegressionTestImage_silent lib t b d bi ti q hb ht hs hc, hq]
  · rw [RegressionTestImage_report lib t b r d bi ti q hb ht hs hc hr (hu hr), hq]

theorem C6_status_is_zero_test_witness :
    (RegressionTestImage libArtifactsFail "t" "b" 1 true).out = .ok 1
    ∧ (RegressionTestImage libTwoTotals "t" "b1" 0 false).out = .ok 1
    ∧ (RegressionTestImage libSame "t" "b" 0 false).out = .ok 0
    ∧ (RegressionTestImage libSame "t" "b" 1 false).out = .ok 0 :=
  ⟨C6_status_is_zero_test libArtifactsFail "t" "b" 1 true "b" "t" 3
      rfl rfl rfl rfl (fun _ => rfl),
   C6_status_is_zero_test libTwoTotals "t" "b1" 0 false "b1" "t" 5
      rfl rfl rfl rfl (fun h => absurd rfl h),
   C6_status_is_zero_test libSame "t" "b" 0 false "b" "t" 0
      rfl rfl rfl rfl (fun h => absurd rfl h),
   C6_status_is_zero_test libSame "t" "b" 1 false "b" "t" 0
      rfl rfl rfl rfl (fun _ => rfl)⟩

/-- C7, as stated, fails: the test image is compared against the identical file,
every step completes and `ImageCompare` returns 0, yet the reporting re-run runs
the writer on `<test>.base.png` and `<test>.test.png` and prints their two file
tags. -/
theorem C7_counterexample :
    libSame.read "a.nii" = .ok "a.nii" ∧ libSame.compare "a.nii" "a.nii" = .ok 0
    ∧ (ImageCompare libSame ["a.nii", "a.nii"]).status = 0
    ∧ writesOf (ImageCompare libSame ["a.nii", "a.nii"]).trace
        = ["a.nii.base.png", "a.nii.test.png"]
    ∧ fileTagsOf (ImageCompare libSame ["a.nii", "a.nii"]).trace
        = [("BaselineImage", "a.nii.base.png"), ("TestImage", "a.nii.test.png")] :=
  ⟨rfl, rfl, by decide, by decide, by decide⟩

/-- C7 (amended): for every run of `ImageCompare` in which the test image is
compared against a baseline that is the identical loadable file, the comparison
giving total difference 0, the reporting re-run is made on that file with
`differences = false`: `<test>.diff.png` is never attempted and no
`DifferenceImage` tag is printed.  When the rescale of line 218 completes in the
re-run, `ImageCompare` returns 0, the writer is run on `<test>.base.png` and
`<test>.test.png` and exactly their two file tags are printed. -/
theorem C7_perfect_match_reporting (lib : Lib) (t : String) (bs : List String)
    (img : lib.Image) (hread : lib.read t = .ok img) (hcmp : lib.compare img img = .ok 0)
    (hmade : (t, t, (0 : Int), false) ∈ callsOf (ImageCompare lib (t :: bs)).trace) :
    reportingBaselines (ImageCompare lib (t :: bs)).trace = [t]
    ∧ (t, t, (1 : Int), true) ∉ callsOf (ImageCompare lib (t :: bs)).trace
    ∧ t ++ ".diff.png" ∉ writesOf (ImageCompare lib (t :: bs)).trace
    ∧ (∀ f, ("DifferenceImage", f) ∉ fileTagsOf (ImageCompare lib (t :: bs)).trace)
    ∧ (lib.rescaleAll t t = none →
        (ImageCompare lib (t :: bs)).status = 0
        ∧ writesOf (ImageCompare lib (t :: bs)).trace = [t ++ ".base.png", t ++ ".test.png"]
        ∧ fileTagsOf (ImageCompare lib (t :: bs)).trace
            = [("BaselineImage", t ++ ".base.png"), ("TestImage", t ++ ".test.png")]) := by
  rw [ImageCompare_eq, List.map_cons] at hmade ⊢
  have hne : bs.map c_str ≠ [] := by
    intro h
    rw [h] at hmade
    simp only [driver] at hmade
    split at hmade
    · split at hmade <;> simp [callsOf] at hmade
    · rename_i h3
      simp at h3
  have h2 : 2 ≤ (c_str t :: bs.map c_str).length := by
    cases hb : bs.map c_str with
    | nil => exact absurd hb hne
    | cons b rest => simp
  have hscan := tryBlock_silent_call lib (c_str t) (bs.map c_str) hne _
    (by rw [← callsOf_driver lib _ h2]; exact hmade) rfl
  have ht : c_str t = t := (scan_test lib (c_str t) (bs.map c_str) 2 2001 2 _ hscan).symm
  rw [ht] at hmade ⊢
  exact driver_perfect_match lib t (bs.map c_str) img hread hcmp hmade

theorem C7_perfect_match_reporting_witness :
    libMixed.read "a.nii" = .ok "a.nii" ∧ libMixed.compare "a.nii" "a.nii" = .ok 0
    ∧ ("a.nii", "a.nii", (0 : Int), false)
        ∈ callsOf (ImageCompare libMixed ["a.nii", "b1", "a.nii"]).trace
    ∧ reportingBaselines (ImageCompare libMixed ["a.nii", "b1", "a.nii"]).trace = ["a.nii"]
    ∧ "a.nii" ++ ".diff.png" ∉ writesOf (ImageCompare libSame ["a.nii", "a.nii"]).trace
    ∧ (ImageCompare libSame ["a.nii", "a.nii"]).status = 0 :=
  ⟨rfl, rfl, by decide,
   (C7_perfect_match_reporting libMixed "a.nii" ["b1", "a.nii"] "a.nii" rfl rfl
      (by decide)).1,
   (C7_perfect_match_reporting libSame "a.nii" ["a.nii"] "a.nii" rfl rfl (by decide)).2.2.1,
   ((C7_perfect_match_reporting libSame "a.nii" ["a.nii"] "a.nii" rfl rfl
      (by decide)).2.2.2.2 rfl).1⟩

/-- C8, as stated, fails: both images load with equal sizes and diagnostics are
forced, yet no writer is run when the comparison filter (line 199) raises, and
none when the rescale of line 218 raises; both are outside every `try`. -/
theorem C8_counterexample :
    (libCompareFails.read "b" = .ok "b" ∧ libCompareFails.read "t" = .ok "t"
      ∧ libCompareFails.size "b" = libCompareFails.size "t"
      ∧ writesOf (RegressionTestImage libCompareFails "t" "b" 1 true).trace = []
      ∧ (RegressionTestImage libCompareFails "t" "b" 1 true).out = .error .itk)
    ∧ (libRescaleAllFails.read "b" = .ok "b" ∧ libRescaleAllFails.read "t" = .ok "t"
      ∧ libRescaleAllFails.size "b" = libRescaleAllFails.size "t"
      ∧ writesOf (RegressionTestImage libRescaleAllFails "t" "b" 1 true).trace = []
      ∧ (RegressionTestImage libRescaleAllFails "t" "b" 1 true).out = .error .itk) :=
  ⟨⟨rfl, rfl, rfl, by decide, rfl⟩, ⟨rfl, rfl, rfl, by decide, rfl⟩⟩

/-- C8 (amended): for every pair of loaded, equal-sized images on which the
comparison and the rescale of line 218 complete, `RegressionTestImage` with
diagnostics forced (`reportErrors` non-zero, `differences` true) runs the writer
exactly three times, on `<test>.diff.png`, `<test>.base.png`, `<test>.test.png`
in that order; whichever of the three guarded rescale steps and three writer
runs fail, the writer runs and the returned status are those of the library in
which none of them fails. -/
theorem C8_three_artifacts_attempted (lib : Lib) (t b : String) (r : Int)
    (bi ti : lib.Image) (q : ℚ) (hb : lib.read b = .ok bi) (ht : lib.read t = .ok ti)
    (hs : lib.size bi = lib.size ti) (hc : lib.compare bi ti = .ok q) (hr : r ≠ 0)
    (hu : lib.rescaleAll t b = none) :
    writesOf (RegressionTestImage lib t b r true).trace
        = [t ++ ".diff.png", t ++ ".base.png", t ++ ".test.png"]
    ∧ (RegressionTestImage lib t b r true).out = .ok (statusOfTotal q)
    ∧ (RegressionTestImage lib t b r true).out
        = (RegressionTestImage
            { lib with rescale := fun _ _ _ => none, write := fun _ _ _ => none }
            t b r true).out
    ∧ writesOf (RegressionTestImage lib t b r true).trace
        = writesOf (RegressionTestImage
            { lib with rescale := fun _ _ _ => none, write := fun _ _ _ => none }
            t b r true).trace := by
  have h1 := RegressionTestImage_report lib t b r true bi ti q hb ht hs hc hr hu
  have h2 := RegressionTestImage_report
    { lib with rescale := fun _ _ _ => none, write := fun _ _ _ => none }
    t b r true bi ti q hb ht hs hc hr hu
  rw [h1, h2]
  simp only [writesOf_append, writesOf_reportArtifacts]
  simp [writesOf]

theorem C8_three_artifacts_attempted_witness :
    writesOf (RegressionTestImage libArtifactsFail "t" "b" 1 true).trace
        = ["t" ++ ".diff.png", "t" ++ ".base.png", "t" ++ ".test.png"]
    ∧ Event.writeError "t.diff.png" ∈ (RegressionTestImage libArtifactsFail "t" "b" 1 true).trace
    ∧ (RegressionTestImage libArtifactsFail "t" "b" 1 true).out = .ok 1 :=
  ⟨(C8_three_artifacts_attempted libArtifactsFail "t" "b" 1 "b" "t" 3
      rfl rfl rfl rfl (by decide) rfl).1,
   by decide,
   (C8_three_artifacts_attempted libArtifactsFail "t" "b" 1 "b" "t" 3
      rfl rfl rfl rfl (by decide) rfl).2.1⟩


/-- C9, as stated, fails: both candidates load with the size of the test image,
the total difference of `b1` is 5 and that of `b2` is 3, and the baseline passed
to the reporting call is `b1`. -/
theorem C9_counterexample :
    libTwoTotals.read "t" = .ok "t"
    ∧ libTwoTotals.read "b1" = .ok "b1" ∧ libTwoTotals.read "b2" = .ok "b2"
    ∧ libTwoTotals.size "b1" = libTwoTotals.size "t"
    ∧ libTwoTotals.size "b2" = libTwoTotals.size "t"
    ∧ libTwoTotals.compare "b1" "t" = .ok 5 ∧ libTwoTotals.compare "b2" "t" = .ok 3
    ∧ reportingBaselines (ImageCompare libTwoTotals ["t", "b1", "b2"]).trace = ["b1"]
    ∧ ¬ ((5 : ℚ) ≤ 3) :=
  ⟨rfl, rfl, rfl, rfl, rfl, rfl, rfl, by decide, by norm_num⟩

/-- C9 (amended): for every test image and every list of two or more loadable
baseline candidates of the size of the test image on which the comparison
completes (test and candidates being the arguments as `ImageCompare` passes them
on, the C strings of `argv`), the baseline `ImageCompare` passes to the
reporting call is the first candidate whose total difference is exactly zero
and, when no candidate has total difference zero, the first candidate of the
list. -/
theorem C9_selected_baseline (lib : Lib) (t : String) (bs : List String) (ti : lib.Image)
    (total : String → ℚ) (h2 : 2 ≤ bs.length) (ht : lib.read (c_str t) = .ok ti)
    (hb : ∀ b ∈ bs.map c_str, ∃ bi, lib.read b = .ok bi ∧ lib.size bi = lib.size ti
      ∧ lib.compare bi ti = .ok (total b)) :
    reportingBaselines (ImageCompare lib (t :: bs)).trace
      = [((bs.map c_str).find? (fun b => decide (total b = 0))).getD
          ((bs.map c_str).headD "")] := by
  rw [ImageCompare_eq, List.map_cons]
  exact driver_selected_baseline lib (c_str t) (bs.map c_str) ti total
    (by rw [List.length_map]; exact h2) ht hb

theorem C9_selected_baseline_witness :
    2 ≤ ["b1", "b2"].length ∧ libTwoTotals.read (c_str "t") = .ok "t"
    ∧ reportingBaselines (ImageCompare libTwoTotals ["t", "b1", "b2"]).trace = ["b1"]
    ∧ reportingBaselines (ImageCompare libMixed ["t", "b1", "same.nii", "b2"]).trace
        = ["same.nii"] :=
  ⟨by decide, rfl,
   C9_selected_baseline libTwoTotals "t" ["b1", "b2"] "t"
      (fun b => if b = "b1" then 5 else 3) (by decide) rfl
      (fun b _ => ⟨b, rfl, rfl, rfl⟩),
   C9_selected_baseline libMixed "t" ["b1", "same.nii", "b2"] "t"
      (fun b => if b = "b1" then 5 else 0) (by decide) rfl
      (fun b hb => ⟨b, by
        simp only [List.map_cons, List.map_nil, List.mem_cons, List.mem_singleton,
          List.not_mem_nil, or_false] at hb
        rcases hb with rfl | rfl | rfl <;> rfl, rfl, rfl⟩)⟩

/-- C10: for every test path and every non-empty list of baseline paths on which
no silent comparison raises (`st` gives the status of each candidate, test and
candidates being the arguments as `ImageCompare` passes them on, the C strings
of `argv`), the calls of `RegressionTestImage` made by `ImageCompare` are
exactly the silent calls (`reportErrors = 0`, `differences = false`) on the
first `k` candidates in argument order, `k` being the position of the first
candidate with status 0 or the number of candidates if there is none, followed
by one reporting call (`reportErrors = 1`) on the earliest candidate attaining
the minimum status among those evaluated, with `differences` true iff that
minimum is non-zero; the selected index `bestBaseline` lies within `argv`, among
the evaluated candidates, and 2001 is never returned. -/
theorem C10_call_sequence (lib : Lib) (t : String) (bs : List String) (st : String → Int)
    (hne : bs ≠ [])
    (hst : ∀ b ∈ bs.map c_str,
      (RegressionTestImage lib (c_str t) b 0 false).out = .ok (st b)) :
    callsOf (ImageCompare lib (t :: bs)).trace
        = ((bs.map c_str).take (evaluatedCount ((bs.map c_str).map st))).map
            (fun b => (c_str t, b, (0 : Int), false))
          ++ [(c_str t,
               (bs.map c_str).getD
                 (earliest (minStatus (evaluated ((bs.map c_str).map st)))
                   (evaluated ((bs.map c_str).map st))) "",
               1, decide (minStatus (evaluated ((bs.map c_str).map st)) ≠ 0))]
    ∧ earliest (minStatus (evaluated ((bs.map c_str).map st)))
          (evaluated ((bs.map c_str).map st))
        < evaluatedCount ((bs.map c_str).map st)
    ∧ evaluatedCount ((bs.map c_str).map st) ≤ bs.length
    ∧ (selectBaseline lib (("ImageCompare" :: t :: bs).map c_str)).out
        = .ok (minStatus (evaluated ((bs.map c_str).map st)),
               earliest (minStatus (evaluated ((bs.map c_str).map st)))
                 (evaluated ((bs.map c_str).map st)) + 2)
    ∧ earliest (minStatus (evaluated ((bs.map c_str).map st)))
          (evaluated ((bs.map c_str).map st)) + 2
        < (("ImageCompare" :: t :: bs).map c_str).length
    ∧ (ImageCompare lib (t :: bs)).status ≠ 2001 := by
  have h := driver_call_sequence lib (c_str t) (bs.map c_str) st (by simpa using hne) hst
  rw [ImageCompare_eq]
  simp only [List.map_cons, c_str_command, List.length_map, List.length_cons] at h ⊢
  exact h

theorem C10_call_sequence_witness :
    callsOf (ImageCompare libMixed ["t", "missing.nii", "b1", "same.nii", "later.nii"]).trace
        = [("t", "missing.nii", 0, false), ("t", "b1", 0, false), ("t", "same.nii", 0, false),
           ("t", "same.nii", 1, false)]
    ∧ callsOf (ImageCompare libMixed ["t", "missing.nii", "b1", "b1"]).trace
        = [("t", "missing.nii", 0, false), ("t", "b1", 0, false), ("t", "b1", 0, false),
           ("t", "b1", 1, true)]
    ∧ (selectBaseline libMixed (["ImageCompare", "t", "missing.nii", "b1", "b1"].map c_str)).out
        = .ok (1, 3) :=
  ⟨(C10_call_sequence libMixed "t" ["missing.nii", "b1", "same.nii", "later.nii"]
      (fun b => if b = "missing.nii" then 1000 else if b = "b1" then 1 else 0) (by decide)
      (fun b hb => by
        simp only [List.map_cons, List.map_nil, List.mem_cons, List.mem_singleton,
          List.not_mem_nil, or_false] at hb
        rcases hb with rfl | rfl | rfl | rfl <;> rfl)).1,
   (C10_call_sequence libMixed "t" ["missing.nii", "b1", "b1"]
      (fun b => if b = "missing.nii" then 1000 else if b = "b1" then 1 else 0) (by decide)
      (fun b hb => by
        simp only [List.map_cons, List.map_nil, List.mem_cons, List.mem_singleton,
          List.not_mem_nil, or_false] at hb
        rcases hb with rfl | rfl | rfl <;> rfl)).1,
   (C10_call_sequence libMixed "t" ["missing.nii", "b1", "b1"]
      (fun b => if b = "missing.nii" then 1000 else if b = "b1" then 1 else 0) (by decide)
      (fun b hb => by
        simp only [List.map_cons, List.map_nil, List.mem_cons, List.mem_singleton,
          List.not_mem_nil, or_false] at hb
        rcases hb with rfl | rfl | rfl <;> rfl)).2.2.2.1⟩

end ants
